import Mathlib

/-!
A verification development for the subway-style data structure in
`railway_data_structure.py` (duplicated, up to comments, in
`Subway_data_structure.py`).

The Python code is shallowly embedded: stations and tracks live in
insertion-ordered association lists keyed by their string identifiers
(mirroring Python 3 `dict` semantics: updating an existing key keeps its
position, a new key is appended), and every Python object reference is
replaced by the referenced station's identifier.  Mutation of a station
object becomes an in-place update of the association list entry; sequential
updates reproduce Python's aliasing when the two identifiers coincide.
Route costs (1, 0.5, 0.3, 2 and integer transfer costs) are modelled as
rationals; all cost comparisons performed by the code are between sums of
these constants, where float and rational ordering agree on every input
considered here.

Fields of the Python classes that no modelled operation ever reads or that
only drive the out-of-scope benchmark/visualisation (`passenger_capacity`,
`access_frequency`, `is_active`, `last_accessed`, `access_pattern`,
`capacity`, and the never-written `junctions`/`network_map`/
`average_path_length`/`cache_efficiency` attributes) are omitted.
-/

/-- StationType enum from the source. -/
inductive StationType where
  | REGULAR
  | JUNCTION
  | TERMINAL
  | EXPRESS
  | TRANSFER
deriving DecidableEq, Repr

/-- TrackType enum from the source. -/
inductive TrackType where
  | MAIN
  | BRANCH
  | EXPRESS
  | LOOP
deriving DecidableEq, Repr

/-- The `.value` string of the Python `TrackType` enum members. -/
def TrackType.value : TrackType → String
  | .MAIN => "main"
  | .BRANCH => "branch"
  | .EXPRESS => "express"
  | .LOOP => "loop"

/-- Errors raised by the construction operations: `ValueError(... not found)`
for missing anchors and `IndexError` for a negative list index below
`-len`. -/
inductive RailError where
  | notFound (msg : String)
  | indexError
deriving DecidableEq, Repr

/-- Ordered association list lookup (first entry with the key). -/
def alGet {κ ν : Type} [DecidableEq κ] (k : κ) : List (κ × ν) → Option ν
  | [] => none
  | (k', v) :: rest => if k' = k then some v else alGet k rest

/-- Python-`dict`-style assignment: update an existing key in place,
append a missing key at the end. -/
def alSet {κ ν : Type} [DecidableEq κ] (k : κ) (v : ν) : List (κ × ν) → List (κ × ν)
  | [] => [(k, v)]
  | (k', v') :: rest => if k' = k then (k, v) :: rest else (k', v') :: alSet k v rest

/-- In-place update of the value stored under `k` (no-op when absent). -/
def alModify {κ ν : Type} [DecidableEq κ] (k : κ) (f : ν → ν) : List (κ × ν) → List (κ × ν)
  | [] => []
  | (k', v') :: rest => if k' = k then (k', f v') :: rest else (k', v') :: alModify k f rest

/-- Python `set.add` on a set represented as a duplicate-free list. -/
def addIfAbsent {β : Type} [DecidableEq β] (x : β) (l : List β) : List β :=
  if x ∈ l then l else l ++ [x]

/-- `SubwayStation`: one data item plus typed edges.  Object references are
replaced by station identifiers. -/
structure SubwayStation (α : Type) where
  station_id : String
  data : α
  station_type : StationType := .REGULAR
  next_stations : List (TrackType × String) := []
  prev_stations : List (TrackType × String) := []
  branch_connections : List String := []
  express_skip_to : Option String := none
  transfer_destinations : List (String × Int) := []
  line_colors : List String := []
deriving DecidableEq, Repr

/-- `SubwayTrack`: an ordered, colored line of station identifiers. -/
structure SubwayTrack where
  track_id : String
  track_type : TrackType
  color : String
  stations : List String := []
  is_bidirectional : Bool := true
  express_stops : List String := []
deriving DecidableEq, Repr

/-- `SubwayNetwork`: the station and track arenas plus the running item
counter. -/
structure SubwayNetwork (α : Type) where
  stations : List (String × SubwayStation α) := []
  tracks : List (String × SubwayTrack) := []
  total_data_items : Nat := 0
deriving DecidableEq, Repr

namespace SubwayNetwork

variable {α : Type}

/-- The empty network produced by `SubwayNetwork()`. -/
def empty (α : Type) : SubwayNetwork α := {}

/-- `self.stations.get(sid)` / `self.stations[sid]`. -/
def getStation (net : SubwayNetwork α) (sid : String) : Option (SubwayStation α) :=
  alGet sid net.stations

/-- `self.stations[sid] = st`. -/
def setStation (net : SubwayNetwork α) (sid : String) (st : SubwayStation α) :
    SubwayNetwork α :=
  { net with stations := alSet sid st net.stations }

/-- In-place mutation of the station object stored under `sid`. -/
def modifyStation (net : SubwayNetwork α) (sid : String) (f : SubwayStation α → SubwayStation α) :
    SubwayNetwork α :=
  { net with stations := alModify sid f net.stations }

/-- `self.tracks.get(tid)` / `self.tracks[tid]`. -/
def getTrack (net : SubwayNetwork α) (tid : String) : Option SubwayTrack :=
  alGet tid net.tracks

/-- `self.tracks[tid] = t`. -/
def setTrack (net : SubwayNetwork α) (tid : String) (t : SubwayTrack) : SubwayNetwork α :=
  { net with tracks := alSet tid t net.tracks }

/-- In-place mutation of the track object stored under `tid`. -/
def modifyTrack (net : SubwayNetwork α) (tid : String) (f : SubwayTrack → SubwayTrack) :
    SubwayNetwork α :=
  { net with tracks := alModify tid f net.tracks }

/-- The identifiers present in the station arena. -/
def stationIds (net : SubwayNetwork α) : List String :=
  net.stations.map (·.1)

/-- Loop body of `create_main_line`: builds the chain of fresh stations.
`n` is the length of the full data list (the terminal test needs it),
`i` the positional index, `prev` the previously created station.  Returns
the updated network and the created station identifiers in order. -/
def create_main_line_aux (line_id color : String) (n : Nat) :
    List α → Nat → Option String → SubwayNetwork α → List String →
    SubwayNetwork α × List String
  | [], _, _, net, acc => (net, acc)
  | data :: rest, i, prev, net, acc =>
    let sid := line_id ++ "_station_" ++ Nat.repr i
    let stype := if i = 0 ∨ i = n - 1 then StationType.TERMINAL else StationType.REGULAR
    let st : SubwayStation α :=
      { station_id := sid, data := data, station_type := stype, line_colors := [color],
        prev_stations := match prev with | some p => [(TrackType.MAIN, p)] | none => [] }
    let net1 := match prev with
      | some p => net.modifyStation p
          (fun s => { s with next_stations := alSet TrackType.MAIN sid s.next_stations })
      | none => net
    create_main_line_aux line_id color n rest (i + 1) (some sid) (net1.setStation sid st)
      (acc ++ [sid])

/-- `create_main_line(line_id, stations_data, color)`. -/
def create_main_line (net : SubwayNetwork α) (line_id : String) (stations_data : List α)
    (color : String) : SubwayNetwork α × SubwayTrack :=
  let r := create_main_line_aux line_id color stations_data.length stations_data 0 none net []
  let track : SubwayTrack :=
    { track_id := line_id, track_type := TrackType.MAIN, color := color, stations := r.2 }
  ({ r.1.setTrack line_id track with
      total_data_items := r.1.total_data_items + stations_data.length }, track)

/-- Loop body of `create_branch_line`: `prev` starts as the junction. -/
def create_branch_line_aux (branch_id color : String) (n : Nat) :
    List α → Nat → String → SubwayNetwork α → List String →
    SubwayNetwork α × List String
  | [], _, _, net, acc => (net, acc)
  | data :: rest, i, prev, net, acc =>
    let sid := branch_id ++ "_station_" ++ Nat.repr i
    let stype := if i = n - 1 then StationType.TERMINAL else StationType.REGULAR
    let st : SubwayStation α :=
      { station_id := sid, data := data, station_type := stype, line_colors := [color],
        prev_stations := [(TrackType.BRANCH, prev)] }
    let net1 := net.modifyStation prev
      (fun s => { s with next_stations := alSet TrackType.BRANCH sid s.next_stations })
    let net2 := if i = 0 then
        net1.modifyStation prev
          (fun s => { s with branch_connections := s.branch_connections ++ [sid] })
      else net1
    create_branch_line_aux branch_id color n rest (i + 1) sid (net2.setStation sid st)
      (acc ++ [sid])

/-- `create_branch_line(branch_id, junction_station_id, branch_data, color)`.
The pair carries the (possibly updated) network next to the Python return
value or raised exception. -/
def create_branch_line (net : SubwayNetwork α) (branch_id junction_station_id : String)
    (branch_data : List α) (color : String) :
    SubwayNetwork α × Except RailError SubwayTrack :=
  match net.getStation junction_station_id with
  | none =>
    (net, .error (.notFound ("Junction station " ++ junction_station_id ++ " not found")))
  | some _ =>
    let net0 := net.modifyStation junction_station_id
      (fun s => { s with station_type := StationType.JUNCTION })
    let r := create_branch_line_aux branch_id color branch_data.length branch_data 0
      junction_station_id net0 []
    let track : SubwayTrack :=
      { track_id := branch_id, track_type := TrackType.BRANCH, color := color, stations := r.2 }
    ({ r.1.setTrack branch_id track with
        total_data_items := r.1.total_data_items + branch_data.length }, .ok track)

/-- Loop body of `create_express_line`.  An index `i ≥ len` is skipped
(`continue`); `0 ≤ i < len` and `-len ≤ i < 0` select a station the Python
way; `i < -len` raises `IndexError`, keeping the mutations already made and
registering no track.  `tsts`/`tstops` accumulate the express track's
station list and express-stop set. -/
def create_express_line_aux (color : String) (main_ids : List String) :
    List Int → Option String → SubwayNetwork α → List String → List String →
    SubwayNetwork α × Except RailError (List String × List String)
  | [], _, net, tsts, tstops => (net, .ok (tsts, tstops))
  | i :: rest, prev, net, tsts, tstops =>
    if i ≥ (main_ids.length : Int) then
      create_express_line_aux color main_ids rest prev net tsts tstops
    else
      let j : Int := if i ≥ 0 then i else (main_ids.length : Int) + i
      if h : j.toNat < main_ids.length ∧ 0 ≤ j then
        let sid := main_ids.get ⟨j.toNat, h.1⟩
        let net1 := net.modifyStation sid (fun s =>
          { s with station_type := StationType.EXPRESS,
                   line_colors := addIfAbsent color s.line_colors })
        let net2 := match prev with
          | none => net1
          | some p =>
            (net1.modifyStation sid (fun s =>
                { s with prev_stations := alSet TrackType.EXPRESS p s.prev_stations
                })).modifyStation p (fun s =>
                { s with next_stations := alSet TrackType.EXPRESS sid s.next_stations,
                         express_skip_to := some sid })
        create_express_line_aux color main_ids rest (some sid) net2 (tsts ++ [sid])
          (addIfAbsent sid tstops)
      else
        (net, .error .indexError)

/-- `create_express_line(express_id, main_line_id, express_stations, color)`. -/
def create_express_line (net : SubwayNetwork α) (express_id main_line_id : String)
    (express_stations : List Int) (color : String) :
    SubwayNetwork α × Except RailError SubwayTrack :=
  match net.getTrack main_line_id with
  | none => (net, .error (.notFound ("Main line " ++ main_line_id ++ " not found")))
  | some main_track =>
    match create_express_line_aux color main_track.stations express_stations none net [] [] with
    | (net', .ok r) =>
      let track : SubwayTrack :=
        { track_id := express_id, track_type := TrackType.EXPRESS, color := color,
          stations := r.1, express_stops := r.2 }
      (net'.setTrack express_id track, .ok track)
    | (net', .error e) => (net', .error e)

/-- `create_loop_connection(start_station_id, end_station_id, color)`. -/
def create_loop_connection (net : SubwayNetwork α) (start_station_id end_station_id : String)
    (color : String) : SubwayNetwork α × Except RailError SubwayTrack :=
  match net.getStation start_station_id, net.getStation end_station_id with
  | some _, some _ =>
    let loop_id := "loop_" ++ start_station_id ++ "_" ++ end_station_id
    let net1 := net.modifyStation start_station_id (fun s =>
      { s with next_stations := alSet TrackType.LOOP end_station_id s.next_stations })
    let net2 := net1.modifyStation end_station_id (fun s =>
      { s with prev_stations := alSet TrackType.LOOP start_station_id s.prev_stations })
    let net3 := net2.modifyStation start_station_id (fun s =>
      { s with line_colors := addIfAbsent color s.line_colors })
    let net4 := net3.modifyStation end_station_id (fun s =>
      { s with line_colors := addIfAbsent color s.line_colors })
    let track : SubwayTrack :=
      { track_id := loop_id, track_type := TrackType.LOOP, color := color,
        stations := [start_station_id, end_station_id] }
    (net4.setTrack loop_id track, .ok track)
  | _, _ => (net, .error (.notFound "Start or end station not found for loop"))

/-- `add_transfer_connection(station1_id, station2_id, transfer_cost)`:
silent no-op when either endpoint is missing. -/
def add_transfer_connection (net : SubwayNetwork α) (station1_id station2_id : String)
    (transfer_cost : Int) : SubwayNetwork α :=
  match net.getStation station1_id, net.getStation station2_id with
  | some _, some _ =>
    let net1 := net.modifyStation station1_id (fun s =>
      { s with transfer_destinations := s.transfer_destinations ++ [(station2_id, transfer_cost)] })
    let net2 := net1.modifyStation station2_id (fun s =>
      { s with transfer_destinations := s.transfer_destinations ++ [(station1_id, transfer_cost)] })
    let net3 := net2.modifyStation station1_id (fun s =>
      { s with station_type := StationType.TRANSFER })
    net3.modifyStation station2_id (fun s =>
      { s with station_type := StationType.TRANSFER })
  | _, _ => net

/-- `_find_station_by_data`: first station (in arena insertion order) whose
payload equals `data`. -/
def find_station_by_data [DecidableEq α] (net : SubwayNetwork α) (data : α) :
    Option (SubwayStation α) :=
  (net.stations.find? (fun p => decide (p.2.data = data))).map (·.2)

end SubwayNetwork

/-- A frontier entry of `find_optimal_route`: `(station, path, cost)`. -/
abbrev RouteEntry : Type := String × List String × Rat

/-- The successor candidates of the current station, filtered against the
visited set and tagged with their incremental costs, in the exact
enumeration order of the source (next-map entries, express skip, branch
connections, transfer destinations, duplicated LOOP successor). -/
def route_next_options {α : Type} (st : SubwayStation α) (path : List String) (cost : Rat)
    (visited : List String) : List RouteEntry :=
  let o1 := st.next_stations.filterMap (fun p =>
    if p.2 ∈ visited then none
    else some (p.2, path ++ [p.2], cost + (if p.1 = TrackType.EXPRESS then (1 : Rat)/2 else 1)))
  let o2 := match st.express_skip_to with
    | some e => if e ∈ visited then [] else [(e, path ++ [e], cost + (3 : Rat)/10)]
    | none => []
  let o3 := st.branch_connections.filterMap (fun b =>
    if b ∈ visited then none else some (b, path ++ [b], cost + 1))
  let o4 := st.transfer_destinations.filterMap (fun p =>
    if p.1 ∈ visited then none else some (p.1, path ++ [p.1], cost + (p.2 : Rat)))
  let o5 := match alGet TrackType.LOOP st.next_stations with
    | some l => if l ∈ visited then [] else [(l, path ++ [l], cost + 2)]
    | none => []
  o1 ++ o2 ++ o3 ++ o4 ++ o5

/-- Python `list.sort(key=cost)`: a stable ascending sort by cost. -/
def sort_by_cost (l : List RouteEntry) : List RouteEntry :=
  List.insertionSort (fun a b => a.2.2 ≤ b.2.2) l

/-- A bound on how many candidates one expansion of `st` can enqueue. -/
def candBound {α : Type} (st : SubwayStation α) : Nat :=
  st.next_stations.length + st.branch_connections.length +
    st.transfer_destinations.length + 2

/-- The largest `candBound` over the whole arena. -/
def maxCandBound {α : Type} (net : SubwayNetwork α) : Nat :=
  net.stations.foldr (fun p m => max (candBound p.2) m) 0

/-- Fuel that provably outlasts the search loop (see the termination
theorem): one unit per frontier entry plus, for every station that can
still be expanded, one unit for its own iteration and one per candidate it
can enqueue. -/
def initialFuel {α : Type} (net : SubwayNetwork α) : Nat :=
  2 + net.stations.length * (1 + maxCandBound net)

/-- The `while queue:` loop of `find_optimal_route`, with explicit fuel
(`none` = fuel exhausted; the termination theorem shows `initialFuel`
always suffices).  Pops the frontier head FIFO, skips visited stations,
returns the path on reaching `endId`, otherwise appends the cost-sorted
unvisited candidates to the back of the frontier. -/
def routeStep {α : Type} (net : SubwayNetwork α) (endId : String) :
    Nat → List String → List RouteEntry → Option (List String)
  | 0, _, _ => none
  | _ + 1, _, [] => some []
  | fuel + 1, visited, (sid, path, cost) :: rest =>
    if sid ∈ visited then routeStep net endId fuel visited rest
    else
      let visited' := sid :: visited
      if sid = endId then some path
      else match net.getStation sid with
        | none => routeStep net endId fuel visited' rest
        | some st =>
          routeStep net endId fuel visited'
            (rest ++ sort_by_cost (route_next_options st path cost visited'))

namespace SubwayNetwork

variable {α : Type}

/-- `find_optimal_route(start_data, end_data)` before discharging the fuel:
`some []` on unresolved endpoints, otherwise the loop's result. -/
def find_optimal_route_opt [DecidableEq α] (net : SubwayNetwork α) (start_data end_data : α) :
    Option (List String) :=
  match net.find_station_by_data start_data, net.find_station_by_data end_data with
  | some s, some e =>
    routeStep net e.station_id (initialFuel net) [] [(s.station_id, [s.station_id], 0)]
  | _, _ => some []

/-- `find_optimal_route(start_data, end_data)`. -/
def find_optimal_route [DecidableEq α] (net : SubwayNetwork α) (start_data end_data : α) :
    List String :=
  (net.find_optimal_route_opt start_data end_data).getD []

end SubwayNetwork

/-- The record returned by `get_network_statistics`. -/
structure NetworkStats where
  total_stations : Nat
  total_tracks : Nat
  total_data_items : Nat
  junction_count : Nat
  express_stations : Nat
  transfer_hubs : Nat
  terminal_points : Nat
  track_distribution : List (String × Nat)
  avg_connectivity : Rat
deriving DecidableEq, Repr

/-- `track_types[k] = track_types.get(k, 0) + 1` on an insertion-ordered
histogram. -/
def histIncr (k : String) (l : List (String × Nat)) : List (String × Nat) :=
  match alGet k l with
  | some n => alSet k (n + 1) l
  | none => l ++ [(k, 1)]

namespace SubwayNetwork

variable {α : Type}

/-- `get_network_statistics()`. -/
def get_network_statistics (net : SubwayNetwork α) : NetworkStats :=
  let sts := net.stations.map (·.2)
  { total_stations := net.stations.length
    total_tracks := net.tracks.length
    total_data_items := net.total_data_items
    junction_count :=
      (sts.filter (fun s => decide (s.station_type = StationType.JUNCTION))).length
    express_stations :=
      (sts.filter (fun s => decide (s.station_type = StationType.EXPRESS))).length
    transfer_hubs :=
      (sts.filter (fun s => decide (s.station_type = StationType.TRANSFER))).length
    terminal_points :=
      (sts.filter (fun s => decide (s.station_type = StationType.TERMINAL))).length
    track_distribution :=
      net.tracks.foldl (fun acc p => histIncr p.2.track_type.value acc) []
    avg_connectivity :=
      if net.stations.length = 0 then 0
      else ((sts.map (fun s => s.next_stations.length + s.prev_stations.length +
              s.branch_connections.length + s.transfer_destinations.length)).sum : Rat) /
            (net.stations.length : Rat) }

/-- Scan of `insert_data_optimally`: first MAIN/BRANCH track with strictly
minimal station count, in arena order.  The accumulator carries the current
best track and its load. -/
def pick_min_track_aux : List (String × SubwayTrack) → Option (SubwayTrack × Nat) →
    Option SubwayTrack
  | [], best => best.map (·.1)
  | (_, t) :: rest, best =>
    if t.track_type = TrackType.MAIN ∨ t.track_type = TrackType.BRANCH then
      match best with
      | some (b, m) =>
        if t.stations.length < m then pick_min_track_aux rest (some (t, t.stations.length))
        else pick_min_track_aux rest (some (b, m))
      | none => pick_min_track_aux rest (some (t, t.stations.length))
    else pick_min_track_aux rest best

/-- Target-track choice of `insert_data_optimally`: an existing truthy
`preferred_line` wins, otherwise the least-loaded MAIN/BRANCH track.  A
`preferred_line` equal to the empty string is falsy in Python and therefore
ignored. -/
def insert_target (net : SubwayNetwork α) (preferred_line : Option String) :
    Option SubwayTrack :=
  match preferred_line with
  | some p =>
    if p ≠ "" then
      match net.getTrack p with
      | some t => some t
      | none => pick_min_track_aux net.tracks none
    else pick_min_track_aux net.tracks none
  | none => pick_min_track_aux net.tracks none

/-- `insert_data_optimally(data, preferred_line)`.  Returns the new network
and the returned identifier (the fresh station's id, or the new track's id
when a first main line had to be created). -/
def insert_data_optimally (net : SubwayNetwork α) (data : α) (preferred_line : Option String) :
    SubwayNetwork α × String :=
  match net.insert_target preferred_line with
  | none =>
    let r := net.create_main_line "main_0" [data] "blue"
    (r.1, r.2.track_id)
  | some t =>
    let station_id := t.track_id ++ "_auto_" ++ Nat.repr t.stations.length
    let base : SubwayStation α :=
      { station_id := station_id, data := data, line_colors := [t.color] }
    let r : SubwayNetwork α × SubwayStation α :=
      match t.stations.getLast? with
      | none => (net, base)
      | some last_id =>
        ({ net with stations := alModify last_id (fun s =>
            { s with next_stations := alSet t.track_type station_id s.next_stations,
                     station_type := if s.station_type = StationType.TERMINAL then
                                       StationType.REGULAR
                                     else s.station_type }) net.stations },
         { base with prev_stations := [(t.track_type, last_id)],
                     station_type := StationType.TERMINAL })
    let net1 := r.1.modifyTrack t.track_id
      (fun tr => { tr with stations := tr.stations ++ [station_id] })
    ({ net1.setStation station_id r.2 with
        total_data_items := net1.total_data_items + 1 }, station_id)

end SubwayNetwork

/-! ### Derived notions used by the theorems -/

/-- Index resolution of a single `create_express_line` station index:
`none` both for a skipped index (`i ≥ len`, Python `continue`) and for an
index below `-len` (where the loop itself raises `IndexError`). -/
def resolveIdx (main_ids : List String) (i : Int) : Option String :=
  if i ≥ (main_ids.length : Int) then none
  else
    let j : Int := if i ≥ 0 then i else (main_ids.length : Int) + i
    if h : j.toNat < main_ids.length ∧ 0 ≤ j then some (main_ids.get ⟨j.toNat, h.1⟩)
    else none

/-- The stations a `create_express_line` call would select, in selection
order (empty when the main line does not exist). -/
def expressSelection {α : Type} (net : SubwayNetwork α) (main_line_id : String)
    (idxs : List Int) : List String :=
  match net.getTrack main_line_id with
  | none => []
  | some tr => idxs.filterMap (resolveIdx tr.stations)

/-- All identifiers `find_optimal_route` can enqueue from one station, in
enumeration order and ignoring the visited filter. -/
def route_successor_ids {α : Type} (st : SubwayStation α) : List String :=
  st.next_stations.map (·.2) ++
  (match st.express_skip_to with | some e => [e] | none => []) ++
  st.branch_connections ++
  st.transfer_destinations.map (·.1) ++
  (match alGet TrackType.LOOP st.next_stations with | some l => [l] | none => [])

/-- One hop of the routing search: `b` is a candidate successor of `a`. -/
def RouteStep {α : Type} (net : SubwayNetwork α) (a b : String) : Prop :=
  ∃ st, net.getStation a = some st ∧ b ∈ route_successor_ids st

/-- Reachability along routing hops. -/
def RouteReach {α : Type} (net : SubwayNetwork α) : String → String → Prop :=
  Relation.ReflTransGen (RouteStep net)

/-- The bidirectional-pairing invariant claimed by the spec: a `next` edge
of some kind is mirrored by a `prev` edge of the same kind whenever both
endpoint stations exist. -/
def PairInv {α : Type} (net : SubwayNetwork α) : Prop :=
  ∀ a sa k b sb, net.getStation a = some sa → alGet k sa.next_stations = some b →
    net.getStation b = some sb → alGet k sb.prev_stations = some a

/-- Every `next` edge points at a station present in the arena. -/
def NextClosed {α : Type} (net : SubwayNetwork α) : Prop :=
  ∀ a sa k b, net.getStation a = some sa → alGet k sa.next_stations = some b →
    b ∈ net.stationIds

/-- Networks reachable by construction sequences in which no wiring
overwrites state another wiring relies on: generated station identifiers
are fresh, the stations selected by an express line are distinct, exist,
and are not yet the target of an EXPRESS edge, and a loop's end station is
not yet the target of a LOOP edge. -/
inductive Built {α : Type} : SubwayNetwork α → Prop where
  | empty : Built (SubwayNetwork.empty α)
  | main_line (net : SubwayNetwork α) (line_id : String) (items : List α) (color : String)
      (hb : Built net)
      (hfresh : ∀ j, j < items.length →
        (line_id ++ "_station_" ++ Nat.repr j) ∉ net.stationIds) :
      Built (net.create_main_line line_id items color).1
  | branch_line (net : SubwayNetwork α) (branch_id junction_id : String) (items : List α)
      (color : String) (hb : Built net)
      (hfresh : ∀ j, j < items.length →
        (branch_id ++ "_station_" ++ Nat.repr j) ∉ net.stationIds) :
      Built (net.create_branch_line branch_id junction_id items color).1
  | express_line (net : SubwayNetwork α) (express_id main_line_id : String) (idxs : List Int)
      (color : String) (hb : Built net)
      (hnodup : (expressSelection net main_line_id idxs).Nodup)
      (hmem : ∀ s ∈ expressSelection net main_line_id idxs, s ∈ net.stationIds)
      (hfree : ∀ s ∈ expressSelection net main_line_id idxs, ∀ a sa,
        net.getStation a = some sa → alGet TrackType.EXPRESS sa.next_stations ≠ some s) :
      Built (net.create_express_line express_id main_line_id idxs color).1
  | loop_conn (net : SubwayNetwork α) (s e : String) (color : String) (hb : Built net)
      (hfree : ∀ a sa, net.getStation a = some sa →
        alGet TrackType.LOOP sa.next_stations ≠ some e) :
      Built (net.create_loop_connection s e color).1
  | transfer (net : SubwayNetwork α) (id1 id2 : String) (c : Int) (hb : Built net) :
      Built (net.add_transfer_connection id1 id2 c)
  | insert (net : SubwayNetwork α) (data : α) (pref : Option String) (hb : Built net)
      (hfresh : match net.insert_target pref with
        | none => ("main_0_station_0" : String) ∉ net.stationIds
        | some t => (t.track_id ++ "_auto_" ++ Nat.repr t.stations.length) ∉ net.stationIds) :
      Built (net.insert_data_optimally data pref).1

/-- A sequence of `insert_data_optimally` calls with no preferred line;
returns the final network and the returned identifiers in call order. -/
def insert_run {α : Type} (net : SubwayNetwork α) : List α → SubwayNetwork α × List String
  | [] => (net, [])
  | p :: ps =>
    let r := net.insert_data_optimally p none
    let r2 := insert_run r.1 ps
    (r2.1, r.2 :: r2.2)

/-- Numeric value of a decimal digit character. -/
def digitVal (c : Char) : Nat := c.toNat - '0'.toNat

/-- Decimal value of a digit string (used to invert `Nat.repr`). -/
def decodeDigits (l : List Char) : Nat := l.foldl (fun a c => a * 10 + digitVal c) 0

/-! ### Concrete networks used by witnesses and counterexamples -/

/-- The C1 scenario: a six-station main line `M` with an express line over
indices 0 and 5. -/
def expressDemoNet : SubwayNetwork String :=
  let r := (SubwayNetwork.empty String).create_main_line "M" ["A", "B", "C", "D", "E", "F"] "blue"
  (r.1.create_express_line "Express_Line" "M" [0, 5] "red").1

/-- A single three-station main line. -/
def threeStationNet : SubwayNetwork String :=
  ((SubwayNetwork.empty String).create_main_line "L" ["a", "b", "c"] "blue").1

/-- Two loop connections sharing their end station, rewiring its LOOP
`prev` edge. -/
def twoLoopsNet : SubwayNetwork String :=
  let r := threeStationNet.create_loop_connection "L_station_0" "L_station_2" "yellow"
  (r.1.create_loop_connection "L_station_1" "L_station_2" "orange").1

/-- Two main lines with no connection between them. -/
def disconnectedNet : SubwayNetwork String :=
  let r := (SubwayNetwork.empty String).create_main_line "A" ["a0", "a1"] "blue"
  (r.1.create_main_line "B" ["b0", "b1"] "green").1

/-! ### Predicates for the insert-run analysis -/

/-- In `net`, the payload `d` is held exactly by the station `s`: some arena
entry stores it under key `s` with matching `station_id`, and every station
object holding `d` carries `station_id = s`. -/
def OnlyDataAt {α : Type} (net : SubwayNetwork α) (d : α) (s : String) : Prop :=
  (∃ e ∈ net.stations, e.1 = s ∧ e.2.data = d ∧ e.2.station_id = s) ∧
  (∀ e ∈ net.stations, e.2.data = d → e.2.station_id = s)

/-- The track arena is well formed for inserting: keys are distinct, every
track's `track_id` equals its key, and some MAIN or BRANCH track exists. -/
def TracksCoherent {α : Type} (net : SubwayNetwork α) : Prop :=
  (net.tracks.map (·.1)).Nodup ∧
  (∀ e ∈ net.tracks, e.2.track_id = e.1) ∧
  (∃ e ∈ net.tracks, e.2.track_type = TrackType.MAIN ∨ e.2.track_type = TrackType.BRANCH)

/-- Every identifier in `F` is an auto-generated id of some current track
whose encoded position is strictly below that track's current length — so
the id generator can never produce it again. -/
def FreshIds {α : Type} (net : SubwayNetwork α) (F : List String) : Prop :=
  ∀ sid ∈ F, ∃ k tr m, alGet k net.tracks = some tr ∧
    sid = k ++ "_auto_" ++ Nat.repr m ∧ m < tr.stations.length

/-- None of the payloads in `ds` is already stored by a station of `net`. -/
def DataFresh {α : Type} (net : SubwayNetwork α) (ds : List α) : Prop :=
  ∀ d ∈ ds, ∀ e ∈ net.stations, e.2.data ≠ d

/-- The `some target_track` branch of `insert_data_optimally`, factored out
with the chosen track as a parameter (used to reason about one insertion
uniformly). -/
def insert_phase2 {α : Type} (net : SubwayNetwork α) (t : SubwayTrack) (data : α) :
    SubwayNetwork α × String :=
  let station_id := t.track_id ++ "_auto_" ++ Nat.repr t.stations.length
  let base : SubwayStation α :=
    { station_id := station_id, data := data, line_colors := [t.color] }
  let r : SubwayNetwork α × SubwayStation α :=
    match t.stations.getLast? with
    | none => (net, base)
    | some last_id =>
      ({ net with stations := alModify last_id (fun s =>
          { s with next_stations := alSet t.track_type station_id s.next_stations,
                   station_type := if s.station_type = StationType.TERMINAL then
                                     StationType.REGULAR
                                   else s.station_type }) net.stations },
       { base with prev_stations := [(t.track_type, last_id)],
                   station_type := StationType.TERMINAL })
  let net1 := r.1.modifyTrack t.track_id
    (fun tr => { tr with stations := tr.stations ++ [station_id] })
  ({ net1.setStation station_id r.2 with
      total_data_items := net1.total_data_items + 1 }, station_id)

/-! ### Association-list lemmas -/

theorem alGet_alSet_self {κ ν : Type} [DecidableEq κ] (k : κ) (v : ν) (l : List (κ × ν)) :
    alGet k (alSet k v l) = some v := by
  induction l with
  | nil => simp [alSet, alGet]
  | cons h t ih =>
    by_cases hk : h.1 = k
    · simp [alSet, alGet, hk]
    · simpa [alSet, alGet, hk] using ih

theorem alGet_alSet_ne {κ ν : Type} [DecidableEq κ] {k k' : κ} (h : k' ≠ k) (v : ν)
    (l : List (κ × ν)) : alGet k (alSet k' v l) = alGet k l := by
  induction l with
  | nil => simp [alSet, alGet, h]
  | cons hd t ih =>
    by_cases hk : hd.1 = k'
    · have h2 : hd.1 ≠ k := by rw [hk]; exact h
      simp [alSet, alGet, hk, h, h2]
    · by_cases hk2 : hd.1 = k
      · simp [alSet, alGet, hk, hk2, Ne.symm h]
      · simpa [alSet, alGet, hk, hk2] using ih

theorem alGet_alModify_self {κ ν : Type} [DecidableEq κ] (k : κ) (f : ν → ν)
    (l : List (κ × ν)) : alGet k (alModify k f l) = (alGet k l).map f := by
  induction l with
  | nil => simp [alModify, alGet]
  | cons h t ih =>
    by_cases hk : h.1 = k
    · simp [alModify, alGet, hk]
    · simpa [alModify, alGet, hk] using ih

theorem alGet_alModify_ne {κ ν : Type} [DecidableEq κ] {k k' : κ} (h : k' ≠ k) (f : ν → ν)
    (l : List (κ × ν)) : alGet k (alModify k' f l) = alGet k l := by
  induction l with
  | nil => simp [alModify, alGet]
  | cons hd t ih =>
    by_cases hk : hd.1 = k'
    · simp [alModify, alGet, hk, h]
    · by_cases hk2 : hd.1 = k
      · simp [alModify, alGet, hk, hk2, Ne.symm h]
      · simpa [alModify, alGet, hk, hk2] using ih

theorem alGet_isSome_of_mem_fst {κ ν : Type} [DecidableEq κ] {k : κ} {l : List (κ × ν)}
    (h : k ∈ l.map (·.1)) : (alGet k l).isSome := by
  induction l with
  | nil => simp at h
  | cons hd t ih =>
    by_cases hk : hd.1 = k
    · simp [alGet, hk]
    · simp [alGet, hk]
      rcases List.mem_map.mp h with ⟨p, hp, hpk⟩
      rcases List.mem_cons.mp hp with h1 | h1
      · exact absurd (h1 ▸ hpk) hk
      · exact ih (List.mem_map.mpr ⟨p, h1, hpk⟩)

theorem mem_fst_of_alGet_eq_some {κ ν : Type} [DecidableEq κ] {k : κ} {v : ν}
    {l : List (κ × ν)} (h : alGet k l = some v) : k ∈ l.map (·.1) := by
  induction l with
  | nil => simp [alGet] at h
  | cons hd t ih =>
    by_cases hk : hd.1 = k
    · subst hk
      exact List.mem_map_of_mem (·.1) (List.mem_cons_self hd t)
    · simp only [alGet, hk, if_false] at h
      simp [ih h]

theorem alGet_eq_none_of_not_mem {κ ν : Type} [DecidableEq κ] {k : κ} {l : List (κ × ν)}
    (h : k ∉ l.map (·.1)) : alGet k l = none := by
  cases hg : alGet k l with
  | none => rfl
  | some v => exact absurd (mem_fst_of_alGet_eq_some hg) h

theorem alModify_map_fst {κ ν : Type} [DecidableEq κ] (k : κ) (f : ν → ν)
    (l : List (κ × ν)) : (alModify k f l).map (·.1) = l.map (·.1) := by
  induction l with
  | nil => simp [alModify]
  | cons hd t ih =>
    by_cases hk : hd.1 = k
    · simp [alModify, hk]
    · simp [alModify, hk, ih]

theorem alSet_map_fst_of_mem {κ ν : Type} [DecidableEq κ] {k : κ} {l : List (κ × ν)}
    (h : k ∈ l.map (·.1)) (v : ν) : (alSet k v l).map (·.1) = l.map (·.1) := by
  induction l with
  | nil => simp at h
  | cons hd t ih =>
    by_cases hk : hd.1 = k
    · simp [alSet, hk]
    · rcases List.mem_map.mp h with ⟨p, hp, hpk⟩
      rcases List.mem_cons.mp hp with h1 | h1
      · exact absurd (h1 ▸ hpk) hk
      · simp [alSet, hk, ih (List.mem_map.mpr ⟨p, h1, hpk⟩)]

theorem alSet_map_fst_of_not_mem {κ ν : Type} [DecidableEq κ] {k : κ} {l : List (κ × ν)}
    (h : k ∉ l.map (·.1)) (v : ν) : (alSet k v l).map (·.1) = l.map (·.1) ++ [k] := by
  induction l with
  | nil => simp [alSet]
  | cons hd t ih =>
    simp only [List.map_cons, List.mem_cons] at h
    push_neg at h
    simp [alSet, Ne.symm h.1, ih h.2]

theorem mem_alSet_map_fst {κ ν : Type} [DecidableEq κ] (k k' : κ) (v : ν)
    (l : List (κ × ν)) : k' ∈ (alSet k v l).map (·.1) ↔ k' = k ∨ k' ∈ l.map (·.1) := by
  by_cases h : k ∈ l.map (·.1)
  · rw [alSet_map_fst_of_mem h]
    constructor
    · exact fun hm => Or.inr hm
    · rintro (rfl | hm)
      · exact h
      · exact hm
  · rw [alSet_map_fst_of_not_mem h]
    simp [or_comm]

/-! ### C1: the express shortcut wins the six-station scenario -/

unseal Rat.add Rat.mul Rat.inv in
/-- C1: On a six-station main line `M` with items A..F and an express line
over indices 0 and 5, `find_optimal_route(A, F)` returns exactly the
two-element path `[M_station_0, M_station_5]`: the express shortcut's
incremental cost 0.3 sorts before the normal EXPRESS edge (0.5) and the
MAIN edge (1), so its frontier entry is popped first. -/
theorem c1_express_shortcut_route :
    expressDemoNet.find_optimal_route "A" "F" = ["M_station_0", "M_station_5"] := by
  decide

/-! ### C8: statistics of a three-station main line -/

unseal Rat.add Rat.mul Rat.inv in
/-- C8: a network consisting of one 3-station main line reports 3 stations,
2 terminals, 0 junctions, and average connectivity (2+2+0+0)/3 = 4/3. -/
theorem c8_three_station_statistics :
    (threeStationNet.get_network_statistics).total_stations = 3 ∧
    (threeStationNet.get_network_statistics).terminal_points = 2 ∧
    (threeStationNet.get_network_statistics).junction_count = 0 ∧
    (threeStationNet.get_network_statistics).avg_connectivity = 4 / 3 := by
  refine ⟨by decide, by decide, by decide, by decide⟩

/-! ### C2: missing anchors raise NotFound and leave the network untouched -/

/-- C2: `create_branch_line` with a missing junction station,
`create_express_line` with a missing main line, and
`create_loop_connection` with a missing endpoint each return the NotFound
error and the network exactly as it was (no partial track, no counter or
station change). -/
theorem c2_not_found_no_mutation {α : Type} (net : SubwayNetwork α)
    (branch_id junction_id : String) (items : List α) (bcolor : String)
    (express_id main_line_id : String) (idxs : List Int) (ecolor : String)
    (loop_start loop_end lcolor : String) :
    (net.getStation junction_id = none →
      net.create_branch_line branch_id junction_id items bcolor =
        (net, .error (.notFound ("Junction station " ++ junction_id ++ " not found")))) ∧
    (net.getTrack main_line_id = none →
      net.create_express_line express_id main_line_id idxs ecolor =
        (net, .error (.notFound ("Main line " ++ main_line_id ++ " not found")))) ∧
    ((net.getStation loop_start = none ∨ net.getStation loop_end = none) →
      net.create_loop_connection loop_start loop_end lcolor =
        (net, .error (.notFound "Start or end station not found for loop"))) := by
  refine ⟨fun h => ?_, fun h => ?_, fun h => ?_⟩
  · simp [SubwayNetwork.create_branch_line, h]
  · simp [SubwayNetwork.create_express_line, h]
  · rcases h with h | h
    · simp [SubwayNetwork.create_loop_connection, h]
    · cases h1 : net.getStation loop_start <;>
        simp [SubwayNetwork.create_loop_connection, h1, h]

/-- Witness for C2 on the three-station network: the missing identifiers
exist in none of the arenas, and all three calls return the unchanged
network with the NotFound error. -/
theorem c2_not_found_no_mutation_witness :
    threeStationNet.create_branch_line "B" "ghost" ["x"] "green" =
      (threeStationNet, .error (.notFound "Junction station ghost not found")) ∧
    threeStationNet.create_express_line "E" "ghost_line" [0] "red" =
      (threeStationNet, .error (.notFound "Main line ghost_line not found")) ∧
    threeStationNet.create_loop_connection "L_station_0" "ghost" "yellow" =
      (threeStationNet, .error (.notFound "Start or end station not found for loop")) := by
  have h := c2_not_found_no_mutation threeStationNet "B" "ghost" ["x"] "green"
    "E" "ghost_line" [0] "red" "L_station_0" "ghost" "yellow"
  exact ⟨h.1 (by decide), h.2.1 (by decide), h.2.2 (Or.inr (by decide))⟩

/-! ### C7: transfer connections are symmetric appends or silent no-ops -/

/-- C7: when both stations exist (and are distinct), `add_transfer_connection`
appends exactly one `(other, cost)` entry to each station's transfer list,
retags both stations as TRANSFER, and changes nothing else; when either
station is missing the network is returned completely unchanged. -/
theorem c7_add_transfer_connection {α : Type} (net : SubwayNetwork α) (id1 id2 : String)
    (c : Int) :
    (∀ st1 st2, id1 ≠ id2 → net.getStation id1 = some st1 → net.getStation id2 = some st2 →
      (net.add_transfer_connection id1 id2 c).getStation id1 =
        some { st1 with
          transfer_destinations := st1.transfer_destinations ++ [(id2, c)],
          station_type := StationType.TRANSFER } ∧
      (net.add_transfer_connection id1 id2 c).getStation id2 =
        some { st2 with
          transfer_destinations := st2.transfer_destinations ++ [(id1, c)],
          station_type := StationType.TRANSFER } ∧
      (∀ sid, sid ≠ id1 → sid ≠ id2 →
        (net.add_transfer_connection id1 id2 c).getStation sid = net.getStation sid) ∧
      (net.add_transfer_connection id1 id2 c).tracks = net.tracks ∧
      (net.add_transfer_connection id1 id2 c).total_data_items = net.total_data_items) ∧
    ((net.getStation id1 = none ∨ net.getStation id2 = none) →
      net.add_transfer_connection id1 id2 c = net) := by
  constructor
  · intro st1 st2 hne h1 h2
    have h1a : alGet id1 net.stations = some st1 := h1
    have h2a : alGet id2 net.stations = some st2 := h2
    refine ⟨?_, ?_, fun sid hs1 hs2 => ?_, ?_, ?_⟩
    · simp only [SubwayNetwork.add_transfer_connection, SubwayNetwork.getStation,
        SubwayNetwork.modifyStation, h1a, h2a]
      rw [alGet_alModify_ne (Ne.symm hne), alGet_alModify_self,
        alGet_alModify_ne (Ne.symm hne), alGet_alModify_self, h1a]
      rfl
    · simp only [SubwayNetwork.add_transfer_connection, SubwayNetwork.getStation,
        SubwayNetwork.modifyStation, h1a, h2a]
      rw [alGet_alModify_self, alGet_alModify_ne hne, alGet_alModify_self,
        alGet_alModify_ne hne, h2a]
      rfl
    · simp only [SubwayNetwork.add_transfer_connection, SubwayNetwork.getStation,
        SubwayNetwork.modifyStation, h1a, h2a]
      rw [alGet_alModify_ne (Ne.symm hs2), alGet_alModify_ne (Ne.symm hs1),
        alGet_alModify_ne (Ne.symm hs2), alGet_alModify_ne (Ne.symm hs1)]
    · simp only [SubwayNetwork.add_transfer_connection, SubwayNetwork.getStation,
        SubwayNetwork.modifyStation, h1a, h2a]
    · simp only [SubwayNetwork.add_transfer_connection, SubwayNetwork.getStation,
        SubwayNetwork.modifyStation, h1a, h2a]
  · intro h
    rcases h with h | h
    · simp [SubwayNetwork.add_transfer_connection, h]
    · cases h1 : net.getStation id1 <;>
        simp [SubwayNetwork.add_transfer_connection, h1, h]

/-- Witness for C7: connecting the two terminals of the three-station line
appends the symmetric entries and retags both; a call with a ghost endpoint
returns the network unchanged. -/
theorem c7_add_transfer_connection_witness :
    (threeStationNet.add_transfer_connection "L_station_0" "L_station_2" 4).getStation
        "L_station_0" =
      some ⟨"L_station_0", "a", StationType.TRANSFER, [(TrackType.MAIN, "L_station_1")],
        [], [], none, [("L_station_2", 4)], ["blue"]⟩ ∧
    (threeStationNet.add_transfer_connection "L_station_0" "L_station_2" 4).getStation
        "L_station_1" = threeStationNet.getStation "L_station_1" ∧
    threeStationNet.add_transfer_connection "ghost" "L_station_1" 1 = threeStationNet := by
  have h := c7_add_transfer_connection threeStationNet "L_station_0" "L_station_2" 4
  have h1 := h.1
    ⟨"L_station_0", "a", StationType.TERMINAL, [(TrackType.MAIN, "L_station_1")],
      [], [], none, [], ["blue"]⟩
    ⟨"L_station_2", "c", StationType.TERMINAL, [], [(TrackType.MAIN, "L_station_1")],
      [], none, [], ["blue"]⟩
    (by decide) (by decide) (by decide)
  exact ⟨h1.1, h1.2.2.1 "L_station_1" (by decide) (by decide),
    (c7_add_transfer_connection threeStationNet "ghost" "L_station_1" 1).2
      (Or.inl (by decide))⟩

/-! ### C10: negative express indices wrap; below `-len` raises IndexError -/

/-- C10: for `-len ≤ i < 0` a `create_express_line` index is not skipped:
it selects the station at position `len + i` of the main track, returns the
express track containing exactly that station (also recorded as an express
stop), and retags the selected station as EXPRESS with the line color
added; for every index below `-len` the call instead raises `IndexError`
(not NotFound, and nothing is skipped), leaving the network unchanged. -/
theorem c10_express_negative_index {α : Type} (net : SubwayNetwork α)
    (express_id main_line_id color : String) (tr : SubwayTrack)
    (htr : net.getTrack main_line_id = some tr) (i : Int)
    (hlo : -(tr.stations.length : Int) ≤ i) (hhi : i < 0) :
    (∃ sid, tr.stations.get? ((tr.stations.length : Int) + i).toNat = some sid ∧
      (net.create_express_line express_id main_line_id [i] color).2 =
        .ok ⟨express_id, TrackType.EXPRESS, color, [sid], true, [sid]⟩ ∧
      ∀ st, net.getStation sid = some st →
        (net.create_express_line express_id main_line_id [i] color).1.getStation sid =
          some { st with station_type := StationType.EXPRESS,
                         line_colors := addIfAbsent color st.line_colors }) ∧
    (∀ j : Int, j < -(tr.stations.length : Int) →
      net.create_express_line express_id main_line_id [j] color =
        (net, .error .indexError)) := by
  constructor
  · have hskip : ¬ (i ≥ (tr.stations.length : Int)) := by omega
    have hneg : ¬ (i ≥ (0 : Int)) := by omega
    have hj : (0 : Int) ≤ (tr.stations.length : Int) + i := by omega
    have hjlt : ((tr.stations.length : Int) + i).toNat < tr.stations.length := by omega
    refine ⟨tr.stations.get ⟨((tr.stations.length : Int) + i).toNat, hjlt⟩,
      (List.get?_eq_get hjlt).symm ▸ rfl, ?_, ?_⟩
    · simp only [SubwayNetwork.create_express_line, htr,
        SubwayNetwork.create_express_line_aux, hskip, hneg, if_false, if_neg]
      rw [dif_pos ⟨hjlt, hj⟩]
      simp [SubwayNetwork.create_express_line_aux, addIfAbsent]
    · intro st hst
      have hsta : alGet (tr.stations.get ⟨((tr.stations.length : Int) + i).toNat, hjlt⟩)
          net.stations = some st := hst
      simp only [SubwayNetwork.create_express_line, htr,
        SubwayNetwork.create_express_line_aux, hskip, hneg, if_false, if_neg]
      rw [dif_pos ⟨hjlt, hj⟩]
      simp only [SubwayNetwork.create_express_line_aux, SubwayNetwork.setTrack,
        SubwayNetwork.modifyStation, SubwayNetwork.getStation]
      rw [alGet_alModify_self, hsta]
      rfl
  · intro j hjlt
    have hskip : ¬ (j ≥ (tr.stations.length : Int)) := by omega
    have hneg : ¬ (j ≥ (0 : Int)) := by omega
    have hbad : ¬ ((((tr.stations.length : Int) + j).toNat < tr.stations.length) ∧
        (0 : Int) ≤ (tr.stations.length : Int) + j) := by omega
    simp only [SubwayNetwork.create_express_line, htr,
      SubwayNetwork.create_express_line_aux, hskip, hneg, if_false, if_neg]
    rw [dif_neg hbad]

/-- Witness for C10 on the three-station line: index `-1` selects
`L_station_2` (position 3 + (-1) = 2) and retags it EXPRESS; index `-4`
raises `IndexError`. -/
theorem c10_express_negative_index_witness :
    (threeStationNet.getTrack "L" =
      some ⟨"L", TrackType.MAIN, "blue", ["L_station_0", "L_station_1", "L_station_2"],
        true, []⟩) ∧
    (∃ sid, (["L_station_0", "L_station_1", "L_station_2"] :
        List String).get? ((3 : Int) + (-1)).toNat = some sid ∧
      (threeStationNet.create_express_line "EX" "L" [-1] "red").2 =
        .ok ⟨"EX", TrackType.EXPRESS, "red", [sid], true, [sid]⟩ ∧
      ∀ st, threeStationNet.getStation sid = some st →
        (threeStationNet.create_express_line "EX" "L" [-1] "red").1.getStation sid =
          some { st with station_type := StationType.EXPRESS,
                         line_colors := addIfAbsent "red" st.line_colors }) ∧
    threeStationNet.create_express_line "EX" "L" [-4] "red" =
      (threeStationNet, .error .indexError) := by
  have h := c10_express_negative_index threeStationNet "EX" "L" "red"
    ⟨"L", TrackType.MAIN, "blue", ["L_station_0", "L_station_1", "L_station_2"], true, []⟩
    (by decide) (-1) (by decide) (by decide)
  exact ⟨by decide, h.1, h.2 (-4) (by decide)⟩

/-! ### Decimal representation lemmas (identifier distinctness) -/

theorem toDigitsCore_append (fuel : Nat) : ∀ (n : Nat) (acc : List Char),
    Nat.toDigitsCore 10 fuel n acc = Nat.toDigitsCore 10 fuel n [] ++ acc := by
  induction fuel with
  | zero => intro n acc; simp [Nat.toDigitsCore]
  | succ fuel ih =>
    intro n acc
    simp only [Nat.toDigitsCore]
    by_cases h : n / 10 = 0
    · simp [h]
    · simp only [h, if_false]
      rw [ih (n / 10) (Nat.digitChar (n % 10) :: acc),
        ih (n / 10) (Nat.digitChar (n % 10) :: [])]
      simp

theorem digitVal_digitChar {m : Nat} (h : m < 10) : digitVal (Nat.digitChar m) = m := by
  interval_cases m <;> decide

theorem decodeDigits_append_singleton (l : List Char) (c : Char) :
    decodeDigits (l ++ [c]) = decodeDigits l * 10 + digitVal c := by
  simp [decodeDigits, List.foldl_append]

theorem decode_toDigitsCore (fuel : Nat) : ∀ n : Nat, n < fuel →
    decodeDigits (Nat.toDigitsCore 10 fuel n []) = n := by
  induction fuel with
  | zero => intro n h; omega
  | succ fuel ih =>
    intro n h
    simp only [Nat.toDigitsCore]
    by_cases h0 : n / 10 = 0
    · have hn : n < 10 := by omega
      have hmod : n % 10 = n := Nat.mod_eq_of_lt hn
      rw [if_pos h0]
      simp [decodeDigits, hmod, digitVal_digitChar hn]
    · simp only [h0, if_false]
      rw [toDigitsCore_append fuel (n / 10) _, decodeDigits_append_singleton,
        ih (n / 10) (by omega)]
      have : n % 10 < 10 := Nat.mod_lt n (by omega)
      rw [digitVal_digitChar this]
      omega

theorem nat_repr_injective {m n : Nat} (h : Nat.repr m = Nat.repr n) : m = n := by
  have hd : Nat.toDigits 10 m = Nat.toDigits 10 n := by
    have := congrArg String.data h
    simpa [Nat.repr, List.asString] using this
  have hm := decode_toDigitsCore (m + 1) m (by omega)
  have hn := decode_toDigitsCore (n + 1) n (by omega)
  simp only [Nat.toDigits] at hd
  rw [← hm, ← hn, hd]

theorem isDigit_digitChar {m : Nat} (h : m < 10) : (Nat.digitChar m).isDigit = true := by
  interval_cases m <;> decide

theorem toDigitsCore_digits (fuel : Nat) : ∀ (n : Nat) (acc : List Char),
    (∀ c ∈ acc, c.isDigit = true) → ∀ c ∈ Nat.toDigitsCore 10 fuel n acc, c.isDigit = true := by
  induction fuel with
  | zero => intro n acc hacc; simpa [Nat.toDigitsCore] using hacc
  | succ fuel ih =>
    intro n acc hacc
    simp only [Nat.toDigitsCore]
    by_cases h0 : n / 10 = 0
    · simp only [h0, if_true]
      intro c hc
      rcases List.mem_cons.mp hc with rfl | hc
      · exact isDigit_digitChar (Nat.mod_lt n (by omega))
      · exact hacc c hc
    · simp only [h0, if_false]
      refine ih (n / 10) _ ?_
      intro c hc
      rcases List.mem_cons.mp hc with rfl | hc
      · exact isDigit_digitChar (Nat.mod_lt n (by omega))
      · exact hacc c hc

theorem repr_digits (n : Nat) : ∀ c ∈ (Nat.repr n).data, c.isDigit = true := by
  simp only [Nat.repr, List.asString]
  exact toDigitsCore_digits (n + 1) n [] (by simp)

theorem repr_ne_nil (n : Nat) : (Nat.repr n).data ≠ [] := by
  simp only [Nat.repr, List.asString, Nat.toDigits, Nat.toDigitsCore]
  by_cases h0 : n / 10 = 0
  · simp [h0]
  · simp only [h0, if_false]
    rw [toDigitsCore_append]
    simp

theorem digit_underscore_split : ∀ (d1 : List Char) {d2 r1 r2 : List Char},
    (∀ c ∈ d1, c.isDigit = true) → (∀ c ∈ d2, c.isDigit = true) →
    d1 ++ '_' :: r1 = d2 ++ '_' :: r2 → d1 = d2 ∧ r1 = r2 := by
  intro d1
  induction d1 with
  | nil =>
    intro d2 r1 r2 _ h2 heq
    cases d2 with
    | nil => simpa using heq
    | cons c d2' =>
      exfalso
      have hc : c = '_' := by
        have := congrArg (fun l => l.head?) heq
        simpa using this.symm
      have := h2 c (List.mem_cons_self c d2')
      rw [hc] at this
      exact absurd this (by decide)
  | cons c d1' ih =>
    intro d2 r1 r2 h1 h2 heq
    cases d2 with
    | nil =>
      exfalso
      have hc : c = '_' := by simpa using (congrArg (fun l => l.head?) heq)
      have := h1 c (List.mem_cons_self c d1')
      rw [hc] at this
      exact absurd this (by decide)
    | cons c2 d2' =>
      simp only [List.cons_append, List.cons.injEq] at heq
      obtain ⟨rfl, heq⟩ := heq
      have h1' : ∀ x ∈ d1', x.isDigit = true := fun x hx => h1 x (List.mem_cons_of_mem c hx)
      have h2' : ∀ x ∈ d2', x.isDigit = true := fun x hx => h2 x (List.mem_cons_of_mem c hx)
      obtain ⟨hd, hr⟩ := ih h1' h2' heq
      exact ⟨by rw [hd], hr⟩

theorem string_eq_of_data_eq {s t : String} (h : s.data = t.data) : s = t := by
  cases s; cases t; exact congrArg String.mk h

/-- Two Python auto-ids `t ++ "_auto_" ++ repr n` coincide only when both
the track id and the index coincide: the digits after the last underscore
determine the split point. -/
theorem auto_id_injective {t1 t2 : String} {n1 n2 : Nat}
    (h : t1 ++ "_auto_" ++ Nat.repr n1 = t2 ++ "_auto_" ++ Nat.repr n2) :
    t1 = t2 ∧ n1 = n2 := by
  have hd := congrArg String.data h
  simp only [String.data_append] at hd
  have hrev := congrArg List.reverse hd
  simp only [List.reverse_append] at hrev
  have hsep2 : (['_', 'a', 'u', 't', 'o', '_'] : List Char).reverse =
      ['_', 'o', 't', 'u', 'a', '_'] := rfl
  rw [hsep2] at hrev
  have hsep3 : ∀ X : List Char, (['_', 'o', 't', 'u', 'a', '_'] : List Char) ++ X =
      '_' :: (['o', 't', 'u', 'a', '_'] ++ X) := fun X => rfl
  rw [hsep3, hsep3] at hrev
  have h1 : ∀ c ∈ (Nat.repr n1).data.reverse, c.isDigit = true := by
    intro c hc; exact repr_digits n1 c (List.mem_reverse.mp hc)
  have h2 : ∀ c ∈ (Nat.repr n2).data.reverse, c.isDigit = true := by
    intro c hc; exact repr_digits n2 c (List.mem_reverse.mp hc)
  obtain ⟨hds, hts⟩ := digit_underscore_split _ h1 h2 hrev
  refine ⟨?_, ?_⟩
  · apply string_eq_of_data_eq
    have hc := List.append_cancel_left hts
    have := congrArg List.reverse hc
    simpa using this
  · apply nat_repr_injective
    apply string_eq_of_data_eq
    have := congrArg List.reverse hds
    simpa using this

/-- Within one line, the generated station names are injective in the
positional index. -/
theorem station_id_index_injective {line : String} {i j : Nat}
    (h : line ++ "_station_" ++ Nat.repr i = line ++ "_station_" ++ Nat.repr j) : i = j := by
  have hd := congrArg String.data h
  simp only [String.data_append] at hd
  have := List.append_cancel_left hd
  exact nat_repr_injective (string_eq_of_data_eq this)

/-! ### Characterization of `create_main_line` -/

theorem range_map_succ_shift {β : Type} (f : Nat → β) (m i : Nat) :
    [f i] ++ (List.range m).map (fun j => f (i + 1 + j)) =
    (List.range (m + 1)).map (fun j => f (i + j)) := by
  rw [List.range_succ_eq_map]
  simp only [List.map_cons, List.map_map, List.singleton_append, Nat.add_zero]
  congr 1
  apply List.map_congr_left
  intro j _
  simp only [Function.comp]
  congr 1
  omega

theorem create_main_line_aux_spec {α : Type} (line_id color : String) (n : Nat) :
    ∀ (items : List α) (i : Nat) (p : String) (net : SubwayNetwork α) (acc : List String),
      (∀ j, i ≤ j → p ≠ line_id ++ "_station_" ++ Nat.repr j) →
      (SubwayNetwork.create_main_line_aux line_id color n items i (some p) net acc).2 =
        acc ++ (List.range items.length).map
          (fun j => line_id ++ "_station_" ++ Nat.repr (i + j)) ∧
      (SubwayNetwork.create_main_line_aux line_id color n items i (some p) net acc).1.tracks =
        net.tracks ∧
      (SubwayNetwork.create_main_line_aux line_id color n items i
        (some p) net acc).1.total_data_items = net.total_data_items ∧
      (∀ j (hj : j < items.length),
        (SubwayNetwork.create_main_line_aux line_id color n items i
            (some p) net acc).1.getStation (line_id ++ "_station_" ++ Nat.repr (i + j)) = some
          { station_id := line_id ++ "_station_" ++ Nat.repr (i + j),
            data := items.get ⟨j, hj⟩,
            station_type := if i + j = 0 ∨ i + j = n - 1 then StationType.TERMINAL
              else StationType.REGULAR,
            next_stations := if j = items.length - 1 then []
              else [(TrackType.MAIN, line_id ++ "_station_" ++ Nat.repr (i + j + 1))],
            prev_stations := if j = 0 then [(TrackType.MAIN, p)]
              else [(TrackType.MAIN, line_id ++ "_station_" ++ Nat.repr (i + j - 1))],
            branch_connections := [], express_skip_to := none, transfer_destinations := [],
            line_colors := [color] }) ∧
      (∀ s, (∀ j, j < items.length → s ≠ line_id ++ "_station_" ++ Nat.repr (i + j)) →
        s ≠ p →
        (SubwayNetwork.create_main_line_aux line_id color n items i
          (some p) net acc).1.getStation s = net.getStation s) ∧
      (items = [] →
        (SubwayNetwork.create_main_line_aux line_id color n items i
          (some p) net acc).1.getStation p = net.getStation p) ∧
      (items ≠ [] →
        (SubwayNetwork.create_main_line_aux line_id color n items i
          (some p) net acc).1.getStation p = (net.getStation p).map (fun st =>
            { st with next_stations := alSet TrackType.MAIN (line_id ++ "_station_" ++ Nat.repr i) st.next_stations })) := by
  intro items
  induction items with
  | nil =>
    intro i p net acc hp
    refine ⟨by simp [SubwayNetwork.create_main_line_aux], rfl, rfl,
      by intro j hj; simp at hj, fun s _ _ => rfl, fun _ => rfl, fun h => absurd rfl h⟩
  | cons d rest ih =>
    intro i p net acc hp
    have hpi : p ≠ line_id ++ "_station_" ++ Nat.repr i := hp i (Nat.le_refl i)
    have hfreshnext : ∀ j, i + 1 ≤ j →
        (line_id ++ "_station_" ++ Nat.repr i) ≠ line_id ++ "_station_" ++ Nat.repr j := by
      intro j hij hcontra
      have := station_id_index_injective hcontra
      omega
    obtain ⟨ih1, ih2, ih3, ih4, ih5, ih6, ih7⟩ := ih (i + 1)
      (line_id ++ "_station_" ++ Nat.repr i)
      ((net.modifyStation p (fun s =>
        { s with next_stations := alSet TrackType.MAIN (line_id ++ "_station_" ++ Nat.repr i) s.next_stations })).setStation
        (line_id ++ "_station_" ++ Nat.repr i)
        { station_id := line_id ++ "_station_" ++ Nat.repr i, data := d,
          station_type := if i = 0 ∨ i = n - 1 then StationType.TERMINAL
            else StationType.REGULAR,
          prev_stations := [(TrackType.MAIN, p)],
          line_colors := [color] })
      (acc ++ [line_id ++ "_station_" ++ Nat.repr i]) hfreshnext
    have hstep : SubwayNetwork.create_main_line_aux line_id color n (d :: rest) i
        (some p) net acc =
      SubwayNetwork.create_main_line_aux line_id color n rest (i + 1)
        (some (line_id ++ "_station_" ++ Nat.repr i))
        ((net.modifyStation p (fun s =>
          { s with next_stations := alSet TrackType.MAIN (line_id ++ "_station_" ++ Nat.repr i) s.next_stations })).setStation
          (line_id ++ "_station_" ++ Nat.repr i)
          { station_id := line_id ++ "_station_" ++ Nat.repr i, data := d,
            station_type := if i = 0 ∨ i = n - 1 then StationType.TERMINAL
              else StationType.REGULAR,
            prev_stations := [(TrackType.MAIN, p)],
            line_colors := [color] })
        (acc ++ [line_id ++ "_station_" ++ Nat.repr i]) := rfl
    refine ⟨?_, ?_, ?_, ?_, ?_, fun h => absurd h (by simp), fun _ => ?_⟩
    · rw [hstep, ih1, List.append_assoc]
      congr 1
      have := range_map_succ_shift
        (fun k => line_id ++ "_station_" ++ Nat.repr k) rest.length i
      simpa using this
    · rw [hstep, ih2]
      rfl
    · rw [hstep, ih3]
      rfl
    · intro j hj
      rw [hstep]
      match j with
      | 0 =>
        cases rest with
        | nil =>
          have h6 := ih6 rfl
          simp only [Nat.add_zero]
          rw [h6]
          simp only [SubwayNetwork.setStation, SubwayNetwork.getStation]
          rw [alGet_alSet_self]
          rfl
        | cons r0 r' =>
          have h7 := ih7 (by simp)
          simp only [Nat.add_zero]
          rw [h7]
          simp only [SubwayNetwork.setStation, SubwayNetwork.getStation]
          rw [alGet_alSet_self]
          have hlen : ¬ ((0 : Nat) = (d :: r0 :: r').length - 1) := by simp
          simp [hlen, alSet]
      | j' + 1 =>
        have hj' : j' < rest.length := by simpa using hj
        have h4 := ih4 j' hj'
        rw [show i + 1 + j' = i + (j' + 1) from by omega] at h4
        rw [h4]
        have hnz : ¬ (j' + 1 = 0) := by omega
        by_cases hl : j' = rest.length - 1
        · have hl2 : j' + 1 = (d :: rest).length - 1 := by
            simp only [List.length_cons]
            omega
          rw [if_pos hl, if_pos hl2, if_neg hnz]
          by_cases hz : j' = 0
          · subst hz
            simp
          · rw [if_neg hz]
            rfl
        · have hl2 : ¬ (j' + 1 = (d :: rest).length - 1) := by
            simp only [List.length_cons]
            omega
          rw [if_neg hl, if_neg hl2, if_neg hnz]
          by_cases hz : j' = 0
          · subst hz
            simp
          · rw [if_neg hz]
            rfl
    · intro s hs hsp
      rw [hstep]
      have hs' : ∀ j, j < rest.length →
          s ≠ line_id ++ "_station_" ++ Nat.repr (i + 1 + j) := by
        intro j hj
        have := hs (j + 1) (by simpa using Nat.succ_lt_succ hj)
        rwa [show i + (j + 1) = i + 1 + j from by omega] at this
      have hs0 : s ≠ line_id ++ "_station_" ++ Nat.repr i := by
        have := hs 0 (by simp)
        simpa using this
      rw [ih5 s hs' hs0]
      simp only [SubwayNetwork.setStation, SubwayNetwork.modifyStation,
        SubwayNetwork.getStation]
      rw [alGet_alSet_ne (Ne.symm hs0), alGet_alModify_ne (Ne.symm hsp)]
    · have hpgen : ∀ j, j < rest.length →
          p ≠ line_id ++ "_station_" ++ Nat.repr (i + 1 + j) := by
        intro j hj
        exact hp (i + 1 + j) (by omega)
      rw [hstep, ih5 p hpgen hpi]
      simp only [SubwayNetwork.setStation, SubwayNetwork.modifyStation,
        SubwayNetwork.getStation]
      rw [alGet_alSet_ne (Ne.symm hpi), alGet_alModify_self]

theorem create_main_line_spec {α : Type} (net : SubwayNetwork α) (line_id : String)
    (items : List α) (color : String) :
    (net.create_main_line line_id items color).2 =
      { track_id := line_id, track_type := TrackType.MAIN, color := color,
        stations := (List.range items.length).map
          (fun j => line_id ++ "_station_" ++ Nat.repr j) } ∧
    (net.create_main_line line_id items color).1.tracks =
      alSet line_id (net.create_main_line line_id items color).2 net.tracks ∧
    (net.create_main_line line_id items color).1.total_data_items =
      net.total_data_items + items.length ∧
    (∀ j (hj : j < items.length),
      (net.create_main_line line_id items color).1.getStation
          (line_id ++ "_station_" ++ Nat.repr j) = some
        { station_id := line_id ++ "_station_" ++ Nat.repr j, data := items.get ⟨j, hj⟩,
          station_type := if j = 0 ∨ j = items.length - 1 then StationType.TERMINAL
            else StationType.REGULAR,
          next_stations := if j = items.length - 1 then []
            else [(TrackType.MAIN, line_id ++ "_station_" ++ Nat.repr (j + 1))],
          prev_stations := if j = 0 then []
            else [(TrackType.MAIN, line_id ++ "_station_" ++ Nat.repr (j - 1))],
          branch_connections := [], express_skip_to := none, transfer_destinations := [],
          line_colors := [color] }) ∧
    (∀ s, (∀ j, j < items.length → s ≠ line_id ++ "_station_" ++ Nat.repr j) →
      (net.create_main_line line_id items color).1.getStation s = net.getStation s) := by
  cases items with
  | nil =>
    refine ⟨rfl, rfl, rfl, by intro j hj; simp at hj, fun s _ => rfl⟩
  | cons d rest =>
    have hfresh : ∀ j, 1 ≤ j → (line_id ++ "_station_" ++ Nat.repr 0) ≠
        line_id ++ "_station_" ++ Nat.repr j := by
      intro j hij hcontra
      have := station_id_index_injective hcontra
      omega
    obtain ⟨ih1, ih2, ih3, ih4, ih5, ih6, ih7⟩ :=
      create_main_line_aux_spec line_id color (d :: rest).length rest 1
        (line_id ++ "_station_" ++ Nat.repr 0)
        (net.setStation (line_id ++ "_station_" ++ Nat.repr 0)
          { station_id := line_id ++ "_station_" ++ Nat.repr 0, data := d,
            station_type := if 0 = 0 ∨ 0 = (d :: rest).length - 1 then StationType.TERMINAL
              else StationType.REGULAR,
            prev_stations := [],
            line_colors := [color] })
        [line_id ++ "_station_" ++ Nat.repr 0] hfresh
    have hstep : SubwayNetwork.create_main_line_aux line_id color (d :: rest).length
        (d :: rest) 0 none net [] =
      SubwayNetwork.create_main_line_aux line_id color (d :: rest).length rest 1
        (some (line_id ++ "_station_" ++ Nat.repr 0))
        (net.setStation (line_id ++ "_station_" ++ Nat.repr 0)
          { station_id := line_id ++ "_station_" ++ Nat.repr 0, data := d,
            station_type := if 0 = 0 ∨ 0 = (d :: rest).length - 1 then StationType.TERMINAL
              else StationType.REGULAR,
            prev_stations := [],
            line_colors := [color] })
        [line_id ++ "_station_" ++ Nat.repr 0] := rfl
    refine ⟨?_, ?_, ?_, ?_, ?_⟩
    · have ht : (net.create_main_line line_id (d :: rest) color).2 =
        { track_id := line_id, track_type := TrackType.MAIN, color := color,
          stations := (SubwayNetwork.create_main_line_aux line_id color (d :: rest).length
            (d :: rest) 0 none net []).2 } := rfl
      rw [ht, hstep, ih1]
      have hshift := range_map_succ_shift
        (fun k => line_id ++ "_station_" ++ Nat.repr k) rest.length 0
      simp only [Nat.zero_add] at hshift
      rw [show ((d :: rest).length) = rest.length + 1 from rfl, ← hshift]
    · have ht : (net.create_main_line line_id (d :: rest) color).1.tracks =
        alSet line_id (net.create_main_line line_id (d :: rest) color).2
          (SubwayNetwork.create_main_line_aux line_id color (d :: rest).length
            (d :: rest) 0 none net []).1.tracks := rfl
      rw [ht, hstep, ih2]
      rfl
    · have ht : (net.create_main_line line_id (d :: rest) color).1.total_data_items =
        (SubwayNetwork.create_main_line_aux line_id color (d :: rest).length
          (d :: rest) 0 none net []).1.total_data_items + (d :: rest).length := rfl
      rw [ht, hstep, ih3]
      rfl
    · intro j hj
      have hget : ∀ sid, (net.create_main_line line_id (d :: rest) color).1.getStation sid =
          (SubwayNetwork.create_main_line_aux line_id color (d :: rest).length
            (d :: rest) 0 none net []).1.getStation sid := fun _ => rfl
      rw [hget, hstep]
      match j with
      | 0 =>
        cases rest with
        | nil =>
          rw [ih6 rfl]
          simp only [SubwayNetwork.setStation, SubwayNetwork.getStation]
          rw [alGet_alSet_self]
          simp
        | cons r0 r' =>
          rw [ih7 (by simp)]
          simp only [SubwayNetwork.setStation, SubwayNetwork.getStation]
          rw [alGet_alSet_self]
          have hlen : ¬ ((0 : Nat) = (d :: r0 :: r').length - 1) := by simp
          simp [hlen, alSet]
      | j' + 1 =>
        have hj' : j' < rest.length := by simpa using hj
        have h4 := ih4 j' hj'
        rw [show (1 + j' : Nat) = j' + 1 from by omega] at h4
        rw [h4]
        have hnz : ¬ (j' + 1 = 0) := by omega
        have hnext : (if j' = rest.length - 1 then ([] : List (TrackType × String))
            else [(TrackType.MAIN, line_id ++ "_station_" ++ Nat.repr (j' + 1 + 1))]) =
            (if j' + 1 = (d :: rest).length - 1 then ([] : List (TrackType × String))
            else [(TrackType.MAIN, line_id ++ "_station_" ++ Nat.repr (j' + 1 + 1))]) :=
          if_congr (by simp only [List.length_cons]; omega) rfl rfl
        rw [if_neg hnz, hnext]
        by_cases hz : j' = 0
        · subst hz
          simp
        · rw [if_neg hz]
          rfl
    · intro s hs
      have hget : (net.create_main_line line_id (d :: rest) color).1.getStation s =
          (SubwayNetwork.create_main_line_aux line_id color (d :: rest).length
            (d :: rest) 0 none net []).1.getStation s := rfl
      rw [hget, hstep]
      have hs0 : s ≠ line_id ++ "_station_" ++ Nat.repr 0 := by
        have := hs 0 (by simp)
        simpa using this
      have hs' : ∀ j, j < rest.length →
          s ≠ line_id ++ "_station_" ++ Nat.repr (1 + j) := by
        intro j hj
        have := hs (j + 1) (by simpa using Nat.succ_lt_succ hj)
        rwa [show (j + 1 : Nat) = 1 + j from by omega] at this
      rw [ih5 s hs' hs0]
      simp only [SubwayNetwork.setStation, SubwayNetwork.getStation]
      rw [alGet_alSet_ne (Ne.symm hs0)]

/-! ### C5: shape of a freshly created main line -/

/-- C5: `create_main_line(id, items, color)` with `n = |items| ≥ 1` yields a
track whose station list has exactly `n` entries in input order (the j-th
track entry resolves, in the new network, to a station holding the j-th
payload), the first and last stations are TERMINAL (a single station is
TERMINAL), interior stations are REGULAR, and the total-item counter grows
by exactly `n`. -/
theorem c5_create_main_line {α : Type} (net : SubwayNetwork α) (line_id : String)
    (items : List α) (color : String) (hn : 1 ≤ items.length) :
    (net.create_main_line line_id items color).2.stations.length = items.length ∧
    (∀ j, j < items.length → ∃ sid st,
      (net.create_main_line line_id items color).2.stations.get? j = some sid ∧
      (net.create_main_line line_id items color).1.getStation sid = some st ∧
      items.get? j = some st.data ∧
      st.station_type = (if j = 0 ∨ j = items.length - 1 then StationType.TERMINAL
        else StationType.REGULAR)) ∧
    (net.create_main_line line_id items color).1.total_data_items =
      net.total_data_items + items.length := by
  obtain ⟨h1, _, h3, h4, _⟩ := create_main_line_spec net line_id items color
  refine ⟨?_, ?_, h3⟩
  · rw [h1]
    simp
  · intro j hj
    refine ⟨line_id ++ "_station_" ++ Nat.repr j, _, ?_, h4 j hj, ?_, rfl⟩
    · rw [h1]
      simp only [List.get?_map]
      rw [List.get?_range hj]
      rfl
    · exact (List.get?_eq_get hj).symm ▸ rfl

/-- Witness for C5: a fresh two-item line has two stations, both TERMINAL,
holding the payloads in order, and the counter grows by 2. -/
theorem c5_create_main_line_witness :
    (1 ≤ (["x", "y"] : List String).length) ∧
    ((SubwayNetwork.empty String).create_main_line "W" ["x", "y"] "blue").2.stations.length
      = 2 ∧
    ((SubwayNetwork.empty String).create_main_line "W" ["x", "y"] "blue").1.total_data_items
      = 2 ∧
    (∃ sid st, ((SubwayNetwork.empty String).create_main_line "W" ["x", "y"]
        "blue").2.stations.get? 1 = some sid ∧
      ((SubwayNetwork.empty String).create_main_line "W" ["x", "y"] "blue").1.getStation
        sid = some st ∧
      (["x", "y"] : List String).get? 1 = some st.data ∧
      st.station_type = (if 1 = 0 ∨ 1 = (["x", "y"] : List String).length - 1 then
        StationType.TERMINAL else StationType.REGULAR)) := by
  obtain ⟨h1, h2, h3⟩ := c5_create_main_line (SubwayNetwork.empty String) "W" ["x", "y"]
    "blue" (by decide)
  exact ⟨by decide, h1, h3, h2 1 (by decide)⟩

/-! ### C6: unresolved endpoints and exhausted frontiers give an empty path -/

theorem mem_route_next_options_successor {α : Type} {st : SubwayStation α}
    {path : List String} {cost : Rat} {visited : List String} {c : RouteEntry}
    (hc : c ∈ route_next_options st path cost visited) :
    c.1 ∈ route_successor_ids st := by
  simp only [route_next_options] at hc
  simp only [route_successor_ids]
  rcases List.mem_append.mp hc with h14 | h5
  · rcases List.mem_append.mp h14 with h13 | h4
    · rcases List.mem_append.mp h13 with h12 | h3
      · rcases List.mem_append.mp h12 with h1 | h2
        · rcases List.mem_filterMap.mp h1 with ⟨p, hp, hpc⟩
          split at hpc
          · exact absurd hpc (by simp)
          · have he := (Option.some.inj hpc).symm
            have h2 : c.1 = p.2 := by rw [he]
            exact List.mem_append_left _ (List.mem_append_left _ (List.mem_append_left _
              (List.mem_append_left _ (h2 ▸ List.mem_map_of_mem (·.2) hp))))
        · cases hskip : st.express_skip_to with
          | none =>
            rw [hskip] at h2
            exact absurd h2 (List.not_mem_nil c)
          | some e =>
            rw [hskip] at h2
            have check : c ∈ (if e ∈ visited then ([] : List RouteEntry)
              else [(e, path ++ [e], cost + (3 : Rat)/10)]) := h2
            split at check
            · exact absurd check (List.not_mem_nil c)
            · have h1 := List.mem_singleton.mp check
              have hce : c.1 = e := by rw [h1]
              refine List.mem_append_left _ (List.mem_append_left _
                (List.mem_append_left _ (List.mem_append_right _ ?_)))
              rw [hce]
              exact List.mem_singleton_self e
      · rcases List.mem_filterMap.mp h3 with ⟨b, hb, hbc⟩
        split at hbc
        · exact absurd hbc (by simp)
        · have he := (Option.some.inj hbc).symm
          have h2 : c.1 = b := by rw [he]
          exact List.mem_append_left _ (List.mem_append_left _
            (List.mem_append_right _ (h2 ▸ hb)))
    · rcases List.mem_filterMap.mp h4 with ⟨p, hp, hpc⟩
      split at hpc
      · exact absurd hpc (by simp)
      · have he := (Option.some.inj hpc).symm
        have h2 : c.1 = p.1 := by rw [he]
        exact List.mem_append_left _ (List.mem_append_right _
          (h2 ▸ List.mem_map_of_mem (·.1) hp))
  · cases hloop : alGet TrackType.LOOP st.next_stations with
    | none =>
      rw [hloop] at h5
      exact absurd h5 (List.not_mem_nil c)
    | some l =>
      rw [hloop] at h5
      have check : c ∈ (if l ∈ visited then ([] : List RouteEntry)
        else [(l, path ++ [l], cost + 2)]) := h5
      split at check
      · exact absurd check (List.not_mem_nil c)
      · have h1 := List.mem_singleton.mp check
        have hcl : c.1 = l := by rw [h1]
        refine List.mem_append_right _ ?_
        rw [hcl]
        exact List.mem_singleton_self l

theorem mem_of_mem_sort_by_cost {l : List RouteEntry} {c : RouteEntry}
    (hc : c ∈ sort_by_cost l) : c ∈ l := by
  have h2 : c ∈ List.insertionSort (fun a b => a.2.2 ≤ b.2.2) l := hc
  exact (List.perm_insertionSort _ l).mem_iff.mp h2

theorem routeStep_unreachable {α : Type} (net : SubwayNetwork α) (startId endId : String)
    (hnr : ¬ RouteReach net startId endId) :
    ∀ (fuel : Nat) (visited : List String) (queue : List RouteEntry),
      (∀ c ∈ queue, RouteReach net startId c.1) →
      ∀ r, routeStep net endId fuel visited queue = some r → r = [] := by
  intro fuel
  induction fuel with
  | zero => intro visited queue _ r hr; simp [routeStep] at hr
  | succ fuel ih =>
    intro visited queue hq r hr
    match queue with
    | [] => simpa [routeStep] using hr.symm
    | (sid, path, cost) :: rest =>
      by_cases hv : sid ∈ visited
      · rw [show routeStep net endId (fuel + 1) visited ((sid, path, cost) :: rest) =
            routeStep net endId fuel visited rest from by
          simp [routeStep, hv]] at hr
        exact ih visited rest (fun c hc => hq c (List.mem_cons_of_mem _ hc)) r hr
      · by_cases he : sid = endId
        · exact absurd (he ▸ hq (sid, path, cost) (List.mem_cons_self _ _)) hnr
        · cases hst : net.getStation sid with
          | none =>
            rw [show routeStep net endId (fuel + 1) visited ((sid, path, cost) :: rest) =
                routeStep net endId fuel (sid :: visited) rest from by
              simp [routeStep, hv, he, hst]] at hr
            exact ih _ rest (fun c hc => hq c (List.mem_cons_of_mem _ hc)) r hr
          | some st =>
            rw [show routeStep net endId (fuel + 1) visited ((sid, path, cost) :: rest) =
                routeStep net endId fuel (sid :: visited)
                  (rest ++ sort_by_cost (route_next_options st path cost (sid :: visited)))
                from by simp [routeStep, hv, he, hst]] at hr
            refine ih _ _ ?_ r hr
            intro c hc
            rcases List.mem_append.mp hc with hc | hc
            · exact hq c (List.mem_cons_of_mem _ hc)
            · have hsucc := mem_route_next_options_successor (mem_of_mem_sort_by_cost hc)
              have hreach := hq (sid, path, cost) (List.mem_cons_self _ _)
              exact Relation.ReflTransGen.tail hreach ⟨st, hst, hsucc⟩

theorem not_reach_of_closed {α : Type} (net : SubwayNetwork α) (S : List String)
    (s e : String) (hs : s ∈ S) (he : e ∉ S)
    (hclosed : ∀ x ∈ S, ∀ y ∈ ((net.getStation x).map route_successor_ids).getD [], y ∈ S) :
    ¬ RouteReach net s e := by
  intro hr
  have hall : ∀ t, RouteReach net s t → t ∈ S := by
    intro t ht
    induction ht with
    | refl => exact hs
    | tail _ hstep ihm =>
      rcases hstep with ⟨st, hst, hsucc⟩
      refine hclosed _ ihm _ ?_
      rw [hst]
      simpa using hsucc
  exact he (hall e hr)

/-- C6: `find_optimal_route` returns the empty path (rather than raising)
whenever either payload resolves to no station, and whenever both resolve
but the end station is unreachable from the start station along
main/branch/express/loop edges, express skips, branch connections and
transfers (the frontier then exhausts). -/
theorem c6_no_route_empty_path {α : Type} [DecidableEq α] (net : SubwayNetwork α)
    (start_data end_data : α) :
    ((net.find_station_by_data start_data = none ∨
      net.find_station_by_data end_data = none) →
      net.find_optimal_route start_data end_data = []) ∧
    (∀ s e, net.find_station_by_data start_data = some s →
      net.find_station_by_data end_data = some e →
      ¬ RouteReach net s.station_id e.station_id →
      net.find_optimal_route start_data end_data = []) := by
  constructor
  · intro h
    rcases h with h | h
    · simp [SubwayNetwork.find_optimal_route, SubwayNetwork.find_optimal_route_opt, h]
    · cases ha : net.find_station_by_data start_data <;>
        simp [SubwayNetwork.find_optimal_route, SubwayNetwork.find_optimal_route_opt, ha, h]
  · intro s e hs he hnr
    simp only [SubwayNetwork.find_optimal_route, SubwayNetwork.find_optimal_route_opt,
      hs, he]
    cases hr : routeStep net e.station_id (initialFuel net) []
        [(s.station_id, [s.station_id], 0)] with
    | none => rfl
    | some r =>
      have := routeStep_unreachable net s.station_id e.station_id hnr (initialFuel net)
        [] [(s.station_id, [s.station_id], 0)]
        (by
          intro c hc
          rcases List.mem_cons.mp hc with rfl | hc
          · exact Relation.ReflTransGen.refl
          · simp at hc) r hr
      simp [this]

/-- Witness for C6 on two disconnected main lines: a route to a missing
payload and a route across the two lines are both empty. -/
theorem c6_no_route_empty_path_witness :
    disconnectedNet.find_optimal_route "a0" "zz" = [] ∧
    disconnectedNet.find_optimal_route "a0" "b1" = [] := by
  constructor
  · exact (c6_no_route_empty_path disconnectedNet "a0" "zz").1 (Or.inr (by decide))
  · refine (c6_no_route_empty_path disconnectedNet "a0" "b1").2
      ⟨"A_station_0", "a0", StationType.TERMINAL,
        [(TrackType.MAIN, "A_station_1")], [], [], none, [], ["blue"]⟩
      ⟨"B_station_1", "b1", StationType.TERMINAL, [],
        [(TrackType.MAIN, "B_station_0")], [], none, [], ["green"]⟩
      (by decide) (by decide) ?_
    exact not_reach_of_closed disconnectedNet ["A_station_0", "A_station_1"]
      "A_station_0" "B_station_1" (by decide) (by decide) (by decide)

/-! ### C9: the search loop terminates within `initialFuel` -/

theorem route_next_options_length_le {α : Type} (st : SubwayStation α) (path : List String)
    (cost : Rat) (visited : List String) :
    (route_next_options st path cost visited).length ≤ candBound st := by
  have hdef : route_next_options st path cost visited =
      st.next_stations.filterMap (fun p =>
        if p.2 ∈ visited then none
        else some (p.2, path ++ [p.2],
          cost + (if p.1 = TrackType.EXPRESS then (1 : Rat)/2 else 1))) ++
      (match st.express_skip_to with
        | some e => if e ∈ visited then [] else [(e, path ++ [e], cost + (3 : Rat)/10)]
        | none => []) ++
      st.branch_connections.filterMap (fun b =>
        if b ∈ visited then none else some (b, path ++ [b], cost + 1)) ++
      st.transfer_destinations.filterMap (fun p =>
        if p.1 ∈ visited then none else some (p.1, path ++ [p.1], cost + (p.2 : Rat))) ++
      (match alGet TrackType.LOOP st.next_stations with
        | some l => if l ∈ visited then [] else [(l, path ++ [l], cost + 2)]
        | none => []) := rfl
  rw [hdef]
  simp only [List.length_append, candBound]
  have h1 := List.length_filterMap_le (fun (p : TrackType × String) =>
    if p.2 ∈ visited then none
    else some ((p.2, path ++ [p.2],
      cost + (if p.1 = TrackType.EXPRESS then (1 : Rat)/2 else 1)) : RouteEntry))
    st.next_stations
  have h3 := List.length_filterMap_le (fun b =>
    if b ∈ visited then none else some ((b, path ++ [b], cost + 1) : RouteEntry))
    st.branch_connections
  have h4 := List.length_filterMap_le (fun (p : String × Int) =>
    if p.1 ∈ visited then none
    else some ((p.1, path ++ [p.1], cost + (p.2 : Rat)) : RouteEntry))
    st.transfer_destinations
  cases hskip : st.express_skip_to with
  | none =>
    cases hloop : alGet TrackType.LOOP st.next_stations with
    | none => simp only [List.length_nil]; omega
    | some lp =>
      by_cases hv : lp ∈ visited
      · simp only [hv, if_true, List.length_nil]; omega
      · simp only [hv, if_false, List.length_cons, List.length_nil]; omega
  | some e =>
    cases hloop : alGet TrackType.LOOP st.next_stations with
    | none =>
      by_cases he : e ∈ visited
      · simp only [he, if_true, List.length_nil]; omega
      · simp only [he, if_false, List.length_cons, List.length_nil]; omega
    | some lp =>
      by_cases he : e ∈ visited <;> by_cases hv : lp ∈ visited <;>
        simp only [he, hv, if_true, if_false, List.length_cons, List.length_nil] <;> omega


theorem sort_by_cost_length (l : List RouteEntry) : (sort_by_cost l).length = l.length := by
  have hdef : sort_by_cost l = List.insertionSort (fun a b => a.2.2 ≤ b.2.2) l := rfl
  rw [hdef]
  exact (List.perm_insertionSort (fun a b => a.2.2 ≤ b.2.2) l).length_eq

theorem mem_of_alGet_eq_some {κ ν : Type} [DecidableEq κ] {k : κ} {v : ν}
    {l : List (κ × ν)} (h : alGet k l = some v) : (k, v) ∈ l := by
  induction l with
  | nil => simp [alGet] at h
  | cons hd t ih =>
    rw [show alGet k (hd :: t) = if hd.1 = k then some hd.2 else alGet k t from rfl] at h
    by_cases hk : hd.1 = k
    · rw [if_pos hk] at h
      obtain rfl := Option.some.inj h
      have heq : hd = (k, hd.2) := by
        cases hd
        simp only at hk
        rw [hk]
      rw [← heq]
      exact List.mem_cons_self hd t
    · rw [if_neg hk] at h
      exact List.mem_cons_of_mem hd (ih h)

theorem candBound_le_maxCandBound {α : Type} {net : SubwayNetwork α} {sid : String}
    {st : SubwayStation α} (h : net.getStation sid = some st) :
    candBound st ≤ maxCandBound net := by
  have hmem : (sid, st) ∈ net.stations := mem_of_alGet_eq_some h
  have hgen : ∀ (l : List (String × SubwayStation α)), (sid, st) ∈ l →
      candBound st ≤ l.foldr (fun p m => max (candBound p.2) m) 0 := by
    intro l hm
    induction l with
    | nil => simp at hm
    | cons hd t ih =>
      rw [List.foldr_cons]
      rcases List.mem_cons.mp hm with rfl | hm'
      · exact le_max_of_le_left (le_refl _)
      · exact le_max_of_le_right (ih hm')
  exact hgen net.stations hmem

theorem filter_not_visited_mono (l v : List String) (a : String) :
    (l.filter (fun x => decide (x ∉ a :: v))).length ≤
      (l.filter (fun x => decide (x ∉ v))).length := by
  rw [← List.countP_eq_length_filter, ← List.countP_eq_length_filter]
  induction l with
  | nil => simp
  | cons hd t ih =>
    have hp : (if (decide (hd ∉ a :: v)) = true then 1 else 0) =
        (if hd ∈ a :: v then 0 else 1) := by by_cases h : hd ∈ a :: v <;> simp [h]
    have hq : (if (decide (hd ∉ v)) = true then 1 else 0) =
        (if hd ∈ v then 0 else 1) := by by_cases h : hd ∈ v <;> simp [h]
    simp only [List.countP_cons, hp, hq]
    by_cases h2 : hd ∈ v
    · rw [if_pos (List.mem_cons_of_mem a h2), if_pos h2]
      omega
    · rw [if_neg h2]
      by_cases h1 : hd ∈ a :: v
      · rw [if_pos h1]; omega
      · rw [if_neg h1]; omega

theorem filter_not_visited_strict (l v : List String) (a : String) (hal : a ∈ l) (hav : a ∉ v) :
    (l.filter (fun x => decide (x ∉ a :: v))).length <
      (l.filter (fun x => decide (x ∉ v))).length := by
  have key : ∀ (m : List String), a ∈ m →
      m.countP (fun x => decide (x ∉ a :: v)) < m.countP (fun x => decide (x ∉ v)) := by
    intro m hm
    induction m with
    | nil => simp at hm
    | cons hd t ih =>
      have hp : (if (decide (hd ∉ a :: v)) = true then 1 else 0) =
          (if hd ∈ a :: v then 0 else 1) := by by_cases h : hd ∈ a :: v <;> simp [h]
      have hq : (if (decide (hd ∉ v)) = true then 1 else 0) =
          (if hd ∈ v then 0 else 1) := by by_cases h : hd ∈ v <;> simp [h]
      simp only [List.countP_cons, hp, hq]
      by_cases hha : hd = a
      · subst hha
        rw [if_pos (List.mem_cons_self hd v), if_neg hav]
        have hmono := filter_not_visited_mono t v hd
        rw [← List.countP_eq_length_filter, ← List.countP_eq_length_filter] at hmono
        omega
      · have hat : a ∈ t := by
          rcases List.mem_cons.mp hm with h | h
          · exact absurd h.symm hha
          · exact h
        have := ih hat
        by_cases h2 : hd ∈ v
        · rw [if_pos (List.mem_cons_of_mem a h2), if_pos h2]
          omega
        · rw [if_neg h2]
          by_cases h1 : hd ∈ a :: v
          · rw [if_pos h1]; omega
          · rw [if_neg h1]; omega
  rw [← List.countP_eq_length_filter, ← List.countP_eq_length_filter]
  exact key l hal
theorem routeStep_fuel_sufficient {α : Type} (net : SubwayNetwork α) (endId : String) :
    ∀ (fuel : Nat) (visited : List String) (queue : List RouteEntry),
      queue.length +
        ((SubwayNetwork.stationIds net).filter (fun x => decide (x ∉ visited))).length
          * (1 + maxCandBound net) < fuel →
      ∃ r, routeStep net endId fuel visited queue = some r := by
  intro fuel
  induction fuel with
  | zero => intro visited queue h; omega
  | succ fuel ih =>
    intro visited queue h
    cases queue with
    | nil => exact ⟨[], rfl⟩
    | cons hd rest =>
      obtain ⟨sid, path, cost⟩ := hd
      simp only [routeStep]
      by_cases hv : sid ∈ visited
      · rw [if_pos hv]
        apply ih
        simp only [List.length_cons] at h
        omega
      · rw [if_neg hv]
        by_cases he : sid = endId
        · rw [if_pos he]
          exact ⟨path, rfl⟩
        · rw [if_neg he]
          cases hst : net.getStation sid with
          | none =>
            apply ih
            simp only [List.length_cons] at h
            have hm := filter_not_visited_mono (SubwayNetwork.stationIds net) visited sid
            have hmul := Nat.mul_le_mul_right (1 + maxCandBound net) hm
            omega
          | some st =>
            apply ih
            rw [List.length_append, sort_by_cost_length]
            simp only [List.length_cons] at h
            have hopt := route_next_options_length_le st path cost (sid :: visited)
            have hmem : (sid, st) ∈ net.stations := mem_of_alGet_eq_some hst
            have hsid : sid ∈ SubwayNetwork.stationIds net := List.mem_map_of_mem (·.1) hmem
            have hcb := candBound_le_maxCandBound hst
            have hstrict := filter_not_visited_strict (SubwayNetwork.stationIds net) visited sid hsid hv
            have hmul := Nat.mul_le_mul_right (1 + maxCandBound net)
              (Nat.le_sub_one_of_lt hstrict)
            have hK : (((SubwayNetwork.stationIds net).filter (fun x => decide (x ∉ visited))).length - 1)
                  * (1 + maxCandBound net) + (1 + maxCandBound net)
                = ((SubwayNetwork.stationIds net).filter (fun x => decide (x ∉ visited))).length
                  * (1 + maxCandBound net) := by
              have hu : 1 ≤ ((SubwayNetwork.stationIds net).filter (fun x => decide (x ∉ visited))).length := by
                omega
              rw [Nat.sub_one_mul]
              have hle : (1 + maxCandBound net) ≤
                  ((SubwayNetwork.stationIds net).filter (fun x => decide (x ∉ visited))).length
                    * (1 + maxCandBound net) := Nat.le_mul_of_pos_left _ hu
              omega
            omega

/-- C9: the search loop of `find_optimal_route` always terminates: on every
network and every pair of payloads the fueled embedding of the `while queue:`
loop returns a result (`some r`) within `initialFuel net` iterations — the
visited set expands each station at most once, so the iteration count is
bounded by the finite number of enqueuable candidates. -/
theorem c9_route_terminates {α : Type} [DecidableEq α] (net : SubwayNetwork α) (a b : α) :
    ∃ r, net.find_optimal_route_opt a b = some r := by
  rw [SubwayNetwork.find_optimal_route_opt]
  cases hs : net.find_station_by_data a with
  | none => exact ⟨[], rfl⟩
  | some s =>
    cases he : net.find_station_by_data b with
    | none => exact ⟨[], rfl⟩
    | some e =>
      apply routeStep_fuel_sufficient
      have hfe : (SubwayNetwork.stationIds net).filter (fun x => decide (x ∉ ([] : List String)))
          = SubwayNetwork.stationIds net := List.filter_eq_self.mpr (by intro x hx; simp)
      rw [hfe, initialFuel]
      have hlen : (SubwayNetwork.stationIds net).length = net.stations.length := List.length_map _ _
      rw [hlen]
      simp only [List.length_cons, List.length_nil]
      omega
theorem mem_alSet {κ ν : Type} [DecidableEq κ] {e : κ × ν} {k : κ} {v : ν} {l : List (κ × ν)}
    (h : e ∈ alSet k v l) : e = (k, v) ∨ e ∈ l := by
  induction l with
  | nil =>
    simp [alSet] at h
    exact Or.inl h
  | cons hd t ih =>
    rw [show alSet k v (hd :: t) = if hd.1 = k then (k, v) :: t
        else hd :: alSet k v t from rfl] at h
    by_cases hk : hd.1 = k
    · rw [if_pos hk] at h
      rcases List.mem_cons.mp h with h | h
      · exact Or.inl h
      · exact Or.inr (List.mem_cons_of_mem hd h)
    · rw [if_neg hk] at h
      rcases List.mem_cons.mp h with h | h
      · exact Or.inr (h ▸ List.mem_cons_self hd t)
      · rcases ih h with h | h
        · exact Or.inl h
        · exact Or.inr (List.mem_cons_of_mem hd h)

theorem self_mem_alSet {κ ν : Type} [DecidableEq κ] (k : κ) (v : ν) (l : List (κ × ν)) :
    (k, v) ∈ alSet k v l := by
  induction l with
  | nil => simp [alSet]
  | cons hd t ih =>
    rw [show alSet k v (hd :: t) = if hd.1 = k then (k, v) :: t else hd :: alSet k v t from rfl]
    by_cases hk : hd.1 = k
    · rw [if_pos hk]
      exact List.mem_cons_self _ _
    · rw [if_neg hk]
      exact List.mem_cons_of_mem hd ih

theorem mem_alSet_of_ne {κ ν : Type} [DecidableEq κ] {e : κ × ν} {k : κ} (v : ν)
    {l : List (κ × ν)} (he : e ∈ l) (hne : e.1 ≠ k) : e ∈ alSet k v l := by
  induction l with
  | nil => simp at he
  | cons hd t ih =>
    rw [show alSet k v (hd :: t) = if hd.1 = k then (k, v) :: t else hd :: alSet k v t from rfl]
    rcases List.mem_cons.mp he with rfl | h
    · rw [if_neg hne]
      exact List.mem_cons_self _ _
    · by_cases hk : hd.1 = k
      · rw [if_pos hk]
        exact List.mem_cons_of_mem _ h
      · rw [if_neg hk]
        exact List.mem_cons_of_mem hd (ih h)

theorem mem_alModify {κ ν : Type} [DecidableEq κ] {e : κ × ν} {k : κ} {f : ν → ν}
    {l : List (κ × ν)} (h : e ∈ alModify k f l) :
    e ∈ l ∨ ∃ e0, e0 ∈ l ∧ e0.1 = k ∧ e = (k, f e0.2) := by
  induction l with
  | nil => simp [alModify] at h
  | cons hd t ih =>
    rw [show alModify k f (hd :: t) = if hd.1 = k then (hd.1, f hd.2) :: t
        else hd :: alModify k f t from rfl] at h
    by_cases hk : hd.1 = k
    · rw [if_pos hk] at h
      rcases List.mem_cons.mp h with h | h
      · right
        exact ⟨hd, List.mem_cons_self _ _, hk, by rw [h, hk]⟩
      · left
        exact List.mem_cons_of_mem hd h
    · rw [if_neg hk] at h
      rcases List.mem_cons.mp h with h | h
      · left
        exact h ▸ List.mem_cons_self hd t
      · rcases ih h with h | ⟨e0, he0, hk0, heq⟩
        · left
          exact List.mem_cons_of_mem hd h
        · right
          exact ⟨e0, List.mem_cons_of_mem hd he0, hk0, heq⟩

theorem alModify_forward {κ ν : Type} [DecidableEq κ] {e0 : κ × ν} (k : κ) (f : ν → ν)
    {l : List (κ × ν)} (h : e0 ∈ l) :
    ∃ e1 ∈ alModify k f l, e1.1 = e0.1 ∧ (e1.2 = e0.2 ∨ e1.2 = f e0.2) := by
  induction l with
  | nil => simp at h
  | cons hd t ih =>
    rw [show alModify k f (hd :: t) = if hd.1 = k then (hd.1, f hd.2) :: t
        else hd :: alModify k f t from rfl]
    by_cases hk : hd.1 = k
    · rw [if_pos hk]
      rcases List.mem_cons.mp h with rfl | h
      · exact ⟨(e0.1, f e0.2), List.mem_cons_self _ _, rfl, Or.inr rfl⟩
      · exact ⟨e0, List.mem_cons_of_mem _ h, rfl, Or.inl rfl⟩
    · rw [if_neg hk]
      rcases List.mem_cons.mp h with rfl | h
      · exact ⟨e0, List.mem_cons_self _ _, rfl, Or.inl rfl⟩
      · obtain ⟨e1, he1, h1, h2⟩ := ih h
        exact ⟨e1, List.mem_cons_of_mem hd he1, h1, h2⟩

theorem alGet_of_mem_nodup {κ ν : Type} [DecidableEq κ] {k : κ} {v : ν} {l : List (κ × ν)}
    (hnd : (l.map (·.1)).Nodup) (h : (k, v) ∈ l) : alGet k l = some v := by
  induction l with
  | nil => simp at h
  | cons hd t ih =>
    rw [show alGet k (hd :: t) = if hd.1 = k then some hd.2 else alGet k t from rfl]
    rcases List.mem_cons.mp h with heq | h
    · rw [if_pos (by rw [← heq]), ← heq]
    · have hnd' : ((hd :: t).map (·.1)).Nodup := hnd
      rw [List.map_cons, List.nodup_cons] at hnd'
      have hk : hd.1 ≠ k := by
        intro hc
        exact hnd'.1 (hc ▸ (List.mem_map_of_mem (·.1) h))
      rw [if_neg hk]
      exact ih hnd'.2 h

theorem pick_aux_some (l : List (String × SubwayTrack)) :
    ∀ (b : SubwayTrack) (m : Nat), ∃ t, SubwayNetwork.pick_min_track_aux l (some (b, m)) = some t := by
  induction l with
  | nil => exact fun b m => ⟨b, rfl⟩
  | cons hd rest ih =>
    intro b m
    rw [show SubwayNetwork.pick_min_track_aux (hd :: rest) (some (b, m)) =
        (if hd.2.track_type = TrackType.MAIN ∨ hd.2.track_type = TrackType.BRANCH then
          (if hd.2.stations.length < m then
            SubwayNetwork.pick_min_track_aux rest (some (hd.2, hd.2.stations.length))
          else SubwayNetwork.pick_min_track_aux rest (some (b, m)))
        else SubwayNetwork.pick_min_track_aux rest (some (b, m))) from rfl]
    by_cases h1 : hd.2.track_type = TrackType.MAIN ∨ hd.2.track_type = TrackType.BRANCH
    · rw [if_pos h1]
      by_cases h2 : hd.2.stations.length < m
      · rw [if_pos h2]
        exact ih _ _
      · rw [if_neg h2]
        exact ih _ _
    · rw [if_neg h1]
      exact ih _ _

theorem pick_none_some (l : List (String × SubwayTrack))
    (hex : ∃ e ∈ l, e.2.track_type = TrackType.MAIN ∨ e.2.track_type = TrackType.BRANCH) :
    ∃ t, SubwayNetwork.pick_min_track_aux l none = some t := by
  induction l with
  | nil => simp at hex
  | cons hd rest ih =>
    rw [show SubwayNetwork.pick_min_track_aux (hd :: rest) none =
        (if hd.2.track_type = TrackType.MAIN ∨ hd.2.track_type = TrackType.BRANCH then
          SubwayNetwork.pick_min_track_aux rest (some (hd.2, hd.2.stations.length))
        else SubwayNetwork.pick_min_track_aux rest none) from rfl]
    by_cases h1 : hd.2.track_type = TrackType.MAIN ∨ hd.2.track_type = TrackType.BRANCH
    · rw [if_pos h1]
      exact pick_aux_some rest _ _
    · rw [if_neg h1]
      apply ih
      obtain ⟨e, he, hmb⟩ := hex
      rcases List.mem_cons.mp he with rfl | he'
      · exact absurd hmb h1
      · exact ⟨e, he', hmb⟩

theorem pick_mem (l : List (String × SubwayTrack)) :
    ∀ (best : Option (SubwayTrack × Nat)) (t : SubwayTrack),
      SubwayNetwork.pick_min_track_aux l best = some t →
      (∃ k, (k, t) ∈ l) ∨ (∃ m, best = some (t, m)) := by
  induction l with
  | nil =>
    intro best t h
    cases best with
    | none => simp [SubwayNetwork.pick_min_track_aux] at h
    | some bm =>
      right
      obtain ⟨b, m⟩ := bm
      have hb : b = t := Option.some.inj h
      exact ⟨m, by rw [hb]⟩
  | cons hd rest ih =>
    intro best t h
    cases best with
    | none =>
      rw [show SubwayNetwork.pick_min_track_aux (hd :: rest) none =
          (if hd.2.track_type = TrackType.MAIN ∨ hd.2.track_type = TrackType.BRANCH then
            SubwayNetwork.pick_min_track_aux rest (some (hd.2, hd.2.stations.length))
          else SubwayNetwork.pick_min_track_aux rest none) from rfl] at h
      by_cases h1 : hd.2.track_type = TrackType.MAIN ∨ hd.2.track_type = TrackType.BRANCH
      · rw [if_pos h1] at h
        rcases ih _ _ h with ⟨k, hk⟩ | ⟨m, hb⟩
        · exact Or.inl ⟨k, List.mem_cons_of_mem hd hk⟩
        · have ht : hd.2 = t := congrArg Prod.fst (Option.some.inj hb)
          exact Or.inl ⟨hd.1, by rw [← ht]; exact List.mem_cons_self hd rest⟩
      · rw [if_neg h1] at h
        rcases ih _ _ h with ⟨k, hk⟩ | ⟨m, hb⟩
        · exact Or.inl ⟨k, List.mem_cons_of_mem hd hk⟩
        · exact absurd hb (by simp)
    | some bm =>
      obtain ⟨b, m⟩ := bm
      rw [show SubwayNetwork.pick_min_track_aux (hd :: rest) (some (b, m)) =
          (if hd.2.track_type = TrackType.MAIN ∨ hd.2.track_type = TrackType.BRANCH then
            (if hd.2.stations.length < m then
              SubwayNetwork.pick_min_track_aux rest (some (hd.2, hd.2.stations.length))
            else SubwayNetwork.pick_min_track_aux rest (some (b, m)))
          else SubwayNetwork.pick_min_track_aux rest (some (b, m))) from rfl] at h
      have hcase : SubwayNetwork.pick_min_track_aux rest (some (hd.2, hd.2.stations.length)) = some t ∨
          SubwayNetwork.pick_min_track_aux rest (some (b, m)) = some t := by
        by_cases h1 : hd.2.track_type = TrackType.MAIN ∨ hd.2.track_type = TrackType.BRANCH
        · rw [if_pos h1] at h
          by_cases h2 : hd.2.stations.length < m
          · rw [if_pos h2] at h
            exact Or.inl h
          · rw [if_neg h2] at h
            exact Or.inr h
        · rw [if_neg h1] at h
          exact Or.inr h
      rcases hcase with h | h
      · rcases ih _ _ h with ⟨k, hk⟩ | ⟨m', hb⟩
        · exact Or.inl ⟨k, List.mem_cons_of_mem hd hk⟩
        · have ht : hd.2 = t := congrArg Prod.fst (Option.some.inj hb)
          exact Or.inl ⟨hd.1, by rw [← ht]; exact List.mem_cons_self hd rest⟩
      · rcases ih _ _ h with ⟨k, hk⟩ | ⟨m', hb⟩
        · exact Or.inl ⟨k, List.mem_cons_of_mem hd hk⟩
        · have ht : b = t := congrArg Prod.fst (Option.some.inj hb)
          exact Or.inr ⟨m, by rw [ht]⟩
theorem alModify_id {κ ν : Type} [DecidableEq κ] (k : κ) (l : List (κ × ν)) :
    alModify k (fun v => v) l = l := by
  induction l with
  | nil => rfl
  | cons hd t ih =>
    rw [show alModify k (fun v : ν => v) (hd :: t) = if hd.1 = k then (hd.1, hd.2) :: t
        else hd :: alModify k (fun v : ν => v) t from rfl]
    by_cases hk : hd.1 = k
    · rw [if_pos hk]
    · rw [if_neg hk, ih]

theorem insert_eq_phase2 {α : Type} {net : SubwayNetwork α} {t : SubwayTrack}
    {pref : Option String} (d : α) (h : net.insert_target pref = some t) :
    net.insert_data_optimally d pref = insert_phase2 net t d := by
  rw [SubwayNetwork.insert_data_optimally, h]
  rfl
theorem insert_step {α : Type} [DecidableEq α] (net P1 : SubwayNetwork α) (d : α) (sid : String)
    (F : List String) (hc : TracksCoherent net) (hF : FreshIds net F)
    (hP : net.insert_data_optimally d none = (P1, sid)) :
    P1.total_data_items = net.total_data_items + 1 ∧
    TracksCoherent P1 ∧
    FreshIds P1 (sid :: F) ∧
    sid ∉ F ∧
    (∃ st, (sid, st) ∈ P1.stations ∧ st.data = d ∧ st.station_id = sid) ∧
    (∀ e0 ∈ net.stations, e0.1 ≠ sid →
      ∃ e1 ∈ P1.stations, e1.1 = e0.1 ∧ e1.2.data = e0.2.data ∧
        e1.2.station_id = e0.2.station_id) ∧
    (∀ e1 ∈ P1.stations, (e1.1 = sid ∧ e1.2.data = d ∧ e1.2.station_id = sid) ∨
      (∃ e0 ∈ net.stations, e1.1 = e0.1 ∧ e1.2.data = e0.2.data ∧
        e1.2.station_id = e0.2.station_id)) := by
  obtain ⟨hnd, hcoh, hex⟩ := hc
  obtain ⟨t, ht⟩ := pick_none_some net.tracks hex
  have htarget : net.insert_target (none : Option String) = some t := ht
  have htmem : ∃ k, (k, t) ∈ net.tracks := by
    rcases pick_mem net.tracks none t ht with h | ⟨m, hm⟩
    · exact h
    · exact absurd hm (by simp)
  obtain ⟨k0, hk0⟩ := htmem
  have hkid : t.track_id = k0 := hcoh (k0, t) hk0
  have hget : alGet t.track_id net.tracks = some t := by
    rw [hkid]
    exact alGet_of_mem_nodup hnd hk0
  have hP2 : insert_phase2 net t d = (P1, sid) := by
    rw [← insert_eq_phase2 d htarget]
    exact hP
  have hsid : sid = t.track_id ++ "_auto_" ++ Nat.repr t.stations.length := by
    have h2 := congrArg Prod.snd hP2
    have h3 : (insert_phase2 net t d).2
        = t.track_id ++ "_auto_" ++ Nat.repr t.stations.length := by
      simp only [insert_phase2]
    rw [h3] at h2
    exact h2.symm
  have hnet : P1 = (insert_phase2 net t d).1 := (congrArg Prod.fst hP2).symm
  have htracks : (insert_phase2 net t d).1.tracks
      = alModify t.track_id (fun tr => { tr with stations := tr.stations ++
          [t.track_id ++ "_auto_" ++ Nat.repr t.stations.length] }) net.tracks := by
    simp only [insert_phase2]
    cases t.stations.getLast? <;> rfl
  have htotal : (insert_phase2 net t d).1.total_data_items = net.total_data_items + 1 := by
    simp only [insert_phase2]
    cases t.stations.getLast? <;> rfl
  have hs : ∃ (st : SubwayStation α) (g : SubwayStation α → SubwayStation α) (lastid : String),
      st.data = d ∧ st.station_id = t.track_id ++ "_auto_" ++ Nat.repr t.stations.length ∧
      (∀ s, (g s).data = s.data ∧ (g s).station_id = s.station_id) ∧
      (insert_phase2 net t d).1.stations
        = alSet (t.track_id ++ "_auto_" ++ Nat.repr t.stations.length) st
            (alModify lastid g net.stations) := by
    cases hlast : t.stations.getLast? with
    | none =>
      refine ⟨{ station_id := t.track_id ++ "_auto_" ++ Nat.repr t.stations.length,
                data := d, line_colors := [t.color] },
              fun v => v, "", rfl, rfl, fun s => ⟨rfl, rfl⟩, ?_⟩
      simp only [insert_phase2, hlast]
      rw [alModify_id]
      rfl
    | some lastid =>
      refine ⟨{ station_id := t.track_id ++ "_auto_" ++ Nat.repr t.stations.length,
                data := d, line_colors := [t.color],
                prev_stations := [(t.track_type, lastid)],
                station_type := StationType.TERMINAL },
              fun s => { s with
                next_stations := alSet t.track_type
                  (t.track_id ++ "_auto_" ++ Nat.repr t.stations.length) s.next_stations,
                station_type := if s.station_type = StationType.TERMINAL then
                                  StationType.REGULAR
                                else s.station_type },
              lastid, rfl, rfl, fun s => ⟨rfl, rfl⟩, ?_⟩
      simp only [insert_phase2, hlast]
      rfl
  obtain ⟨st, g, lastid, hstd, hstid, hgpres, hstations⟩ := hs
  subst hnet
  subst hsid
  refine ⟨htotal, ?_, ?_, ?_, ?_, ?_, ?_⟩
  · -- TracksCoherent
    refine ⟨?_, ?_, ?_⟩
    · rw [htracks, alModify_map_fst]
      exact hnd
    · intro e he
      rw [htracks] at he
      rcases mem_alModify he with hold | ⟨e0, he0, hk0e, heq⟩
      · exact hcoh e hold
      · rw [heq]
        have h1 := hcoh e0 he0
        exact h1.trans hk0e
    · obtain ⟨e0, he0, hmb⟩ := hex
      obtain ⟨e1, he1, hk1, hv⟩ := alModify_forward t.track_id
        (fun tr => { tr with stations := tr.stations ++
          [t.track_id ++ "_auto_" ++ Nat.repr t.stations.length] }) he0
      refine ⟨e1, by rw [htracks]; exact he1, ?_⟩
      rcases hv with hv | hv
      · rw [hv]
        exact hmb
      · rw [hv]
        exact hmb
  · -- FreshIds
    intro s hsmem
    rcases List.mem_cons.mp hsmem with rfl | hsF
    · refine ⟨t.track_id, { t with stations := t.stations ++
          [t.track_id ++ "_auto_" ++ Nat.repr t.stations.length] }, t.stations.length,
          ?_, rfl, ?_⟩
      · rw [htracks, alGet_alModify_self, hget, Option.map_some']
      · simp
    · obtain ⟨k, tr, m, hgk, hsf, hm⟩ := hF s hsF
      by_cases hkk : k = t.track_id
      · subst hkk
        have htr : tr = t := Option.some.inj (hgk.symm.trans hget)
        refine ⟨t.track_id, { t with stations := t.stations ++
            [t.track_id ++ "_auto_" ++ Nat.repr t.stations.length] }, m, ?_, hsf, ?_⟩
        · rw [htracks, alGet_alModify_self, hget, Option.map_some']
        · subst htr
          simp only [List.length_append, List.length_cons, List.length_nil]
          omega
      · refine ⟨k, tr, m, ?_, hsf, hm⟩
        rw [htracks, alGet_alModify_ne (Ne.symm hkk), hgk]
  · -- fresh id not in F
    intro hmem
    obtain ⟨k, tr, m, hgk, hsf, hm⟩ := hF _ hmem
    obtain ⟨hk, hmm⟩ := auto_id_injective hsf
    subst hk
    have htr : tr = t := Option.some.inj (hgk.symm.trans hget)
    subst htr
    omega
  · -- the new entry exists
    refine ⟨st, ?_, hstd, hstid⟩
    rw [hstations]
    exact self_mem_alSet _ _ _
  · -- forward frame
    intro e0 he0 hne
    obtain ⟨e1, he1, hk1, hv⟩ := alModify_forward lastid g he0
    refine ⟨e1, ?_, hk1, ?_, ?_⟩
    · rw [hstations]
      exact mem_alSet_of_ne _ he1 (by rw [hk1]; exact hne)
    · rcases hv with hv | hv
      · rw [hv]
      · rw [hv]
        exact (hgpres e0.2).1
    · rcases hv with hv | hv
      · rw [hv]
      · rw [hv]
        exact (hgpres e0.2).2
  · -- backward frame
    intro e1 he1
    rw [hstations] at he1
    rcases mem_alSet he1 with heq | hmem
    · left
      refine ⟨by rw [heq], by rw [heq]; exact hstd, by rw [heq]; exact hstid⟩
    · rcases mem_alModify hmem with hold | ⟨e0, he0, hk0e, heq⟩
      · right
        exact ⟨e1, hold, rfl, rfl, rfl⟩
      · right
        refine ⟨e0, he0, ?_, ?_, ?_⟩
        · rw [heq, hk0e]
        · rw [heq]
          exact (hgpres e0.2).1
        · rw [heq]
          exact (hgpres e0.2).2
theorem insert_run_spec {α : Type} [DecidableEq α] :
    ∀ (ds : List α) (net : SubwayNetwork α) (F : List String),
      TracksCoherent net → FreshIds net F → DataFresh net ds → ds.Nodup →
      (insert_run net ds).1.total_data_items = net.total_data_items + ds.length ∧
      (insert_run net ds).2.length = ds.length ∧
      (∀ s ∈ (insert_run net ds).2, s ∉ F) ∧
      (insert_run net ds).2.Nodup ∧
      (∀ (i : Nat) (hi : i < ds.length) (hi2 : i < (insert_run net ds).2.length),
        OnlyDataAt (insert_run net ds).1 (ds.get ⟨i, hi⟩) ((insert_run net ds).2.get ⟨i, hi2⟩)) ∧
      (∀ e0 ∈ net.stations, e0.1 ∉ (insert_run net ds).2 →
        ∃ e1 ∈ (insert_run net ds).1.stations, e1.1 = e0.1 ∧ e1.2.data = e0.2.data ∧
          e1.2.station_id = e0.2.station_id) ∧
      (∀ e1 ∈ (insert_run net ds).1.stations,
        (∃ e0 ∈ net.stations, e1.1 = e0.1 ∧ e1.2.data = e0.2.data ∧
          e1.2.station_id = e0.2.station_id) ∨ e1.2.data ∈ ds) := by
  intro ds
  induction ds with
  | nil =>
    intro net F hc hF hdf hnd
    refine ⟨rfl, rfl, by simp [insert_run], by simp [insert_run], ?_, ?_, ?_⟩
    · intro i hi hi2
      exact absurd hi (Nat.not_lt_zero i)
    · intro e0 he0 hnot
      exact ⟨e0, he0, rfl, rfl, rfl⟩
    · intro e1 he1
      exact Or.inl ⟨e1, he1, rfl, rfl, rfl⟩
  | cons d ds ih =>
    intro net F hc hF hdf hnd
    rcases hins : net.insert_data_optimally d none with ⟨P1, sid⟩
    obtain ⟨htot, hc1, hF1, hsidF, ⟨stx, hstxmem, hstxd, hstxid⟩, hfwd, hbwd⟩ :=
      insert_step net P1 d sid F hc hF hins
    have hrun : insert_run net (d :: ds) = ((insert_run P1 ds).1, sid :: (insert_run P1 ds).2) := by
      simp only [insert_run, hins]
    rw [hrun]
    have hdf1 : DataFresh P1 ds := by
      intro p hp e1 he1
      rcases hbwd e1 he1 with ⟨h1, h2, h3⟩ | ⟨e0, he0, g1, g2, g3⟩
      · rw [h2]
        intro hcon
        exact (List.nodup_cons.mp hnd).1 (hcon ▸ hp)
      · rw [g2]
        exact hdf p (List.mem_cons_of_mem d hp) e0 he0
    have hnd1 : ds.Nodup := (List.nodup_cons.mp hnd).2
    obtain ⟨ih1, ih2, ih3, ih4, ih5, ih6, ih7⟩ := ih P1 (sid :: F) hc1 hF1 hdf1 hnd1
    refine ⟨?_, ?_, ?_, ?_, ?_, ?_, ?_⟩
    · simp only [List.length_cons]
      rw [ih1, htot]
      omega
    · simp only [List.length_cons, ih2]
    · intro s hs
      rcases List.mem_cons.mp hs with rfl | hs'
      · exact hsidF
      · exact fun hsF => (ih3 s hs') (List.mem_cons_of_mem sid hsF)
    · rw [List.nodup_cons]
      exact ⟨fun hmem => (ih3 sid hmem) (List.mem_cons_self sid F), ih4⟩
    · intro i hi hi2
      cases i with
      | zero =>
        show OnlyDataAt (insert_run P1 ds).1 d sid
        have hsid_not : sid ∉ (insert_run P1 ds).2 :=
          fun hm => (ih3 sid hm) (List.mem_cons_self sid F)
        constructor
        · obtain ⟨e1, he1, hk, hdta, hsd⟩ := ih6 (sid, stx) hstxmem hsid_not
          exact ⟨e1, he1, hk, by rw [hdta]; exact hstxd, by rw [hsd]; exact hstxid⟩
        · intro e1 he1 hdata
          rcases ih7 e1 he1 with ⟨e0, he0, hk, hdta, hsd⟩ | hmem
          · rcases hbwd e0 he0 with ⟨h1, h2, h3⟩ | ⟨e00, he00, g1, g2, g3⟩
            · rw [hsd, h3]
            · have hcon : e00.2.data = d := by
                rw [← g2, ← hdta]
                exact hdata
              exact absurd hcon (hdf d (List.mem_cons_self d ds) e00 he00)
          · rw [hdata] at hmem
            exact absurd hmem (List.nodup_cons.mp hnd).1
      | succ j =>
        have hj : j < ds.length := by
          simp only [List.length_cons] at hi
          omega
        have hj2 : j < (insert_run P1 ds).2.length := by
          simp only [List.length_cons] at hi2
          omega
        exact ih5 j hj hj2
    · intro e0 he0 hnot
      have hne : e0.1 ≠ sid := fun h => hnot (h ▸ List.mem_cons_self _ _)
      obtain ⟨e1, he1, hk, hd1, hs1⟩ := hfwd e0 he0 hne
      have hnot1 : e1.1 ∉ (insert_run P1 ds).2 := by
        rw [hk]
        exact fun hm => hnot (List.mem_cons_of_mem sid hm)
      obtain ⟨e2, he2, hk2, hd2, hs2⟩ := ih6 e1 he1 hnot1
      exact ⟨e2, he2, hk2.trans hk, hd2.trans hd1, hs2.trans hs1⟩
    · intro e1 he1
      rcases ih7 e1 he1 with ⟨e0, he0, hk, hd0, hs0⟩ | hmem
      · rcases hbwd e0 he0 with ⟨h1, h2, h3⟩ | ⟨e00, he00, g1, g2, g3⟩
        · right
          rw [hd0, h2]
          exact List.mem_cons_self d ds
        · left
          exact ⟨e00, he00, hk.trans g1, hd0.trans g2, hs0.trans g3⟩
      · right
        exact List.mem_cons_of_mem d hmem
theorem find_station_of_onlyData {α : Type} [DecidableEq α] {net : SubwayNetwork α} {d : α}
    {s : String} (h : OnlyDataAt net d s) :
    ∃ st, net.find_station_by_data d = some st ∧ st.station_id = s := by
  obtain ⟨⟨e, he, hk, hd, hsid⟩, huniq⟩ := h
  have hsome : (net.stations.find? (fun p => decide (p.2.data = d))).isSome := by
    rw [List.find?_isSome]
    exact ⟨e, he, by simp [hd]⟩
  obtain ⟨p, hp⟩ := Option.isSome_iff_exists.mp hsome
  have hpmem : p ∈ net.stations := List.mem_of_find?_eq_some hp
  have hppred : p.2.data = d := by
    have hq := List.find?_some hp
    simpa using hq
  refine ⟨p.2, ?_, huniq p hpmem hppred⟩
  rw [SubwayNetwork.find_station_by_data, hp, Option.map_some']

theorem route_self {α : Type} [DecidableEq α] (net : SubwayNetwork α) {d : α} {s : String}
    (h : OnlyDataAt net d s) : net.find_optimal_route d d = [s] := by
  obtain ⟨st, hfind, hsid⟩ := find_station_of_onlyData h
  rw [SubwayNetwork.find_optimal_route, SubwayNetwork.find_optimal_route_opt, hfind]
  show (routeStep net st.station_id (initialFuel net) []
      [(st.station_id, [st.station_id], 0)]).getD [] = [s]
  have hm : initialFuel net = (1 + net.stations.length * (1 + maxCandBound net)) + 1 := by
    rw [initialFuel]
    omega
  rw [hm]
  have hred : routeStep net st.station_id
      ((1 + net.stations.length * (1 + maxCandBound net)) + 1) []
      [(st.station_id, [st.station_id], 0)] = some [st.station_id] := by
    simp [routeStep]
  rw [hred, Option.getD_some, hsid]

/-- C4 counterexample: starting from the empty network, a single
`insert_data_optimally` call with no preferred line returns `"main_0"` — the
identifier of the newly created *track*, not of any station: the created
station is `"main_0_station_0"`.  The claim that every returned value is a
station identifier is therefore false. -/
theorem c4_counterexample :
    ((SubwayNetwork.empty Nat).insert_data_optimally 0 none).2 = "main_0" ∧
    "main_0" ∉ SubwayNetwork.stationIds ((SubwayNetwork.empty Nat).insert_data_optimally 0 none).1 ∧
    "main_0_station_0" ∈
      SubwayNetwork.stationIds ((SubwayNetwork.empty Nat).insert_data_optimally 0 none).1 := by
  exact ⟨by decide, by decide, by decide⟩

/-- C4 (corrected): when the starting network has a coherent track arena
with at least one MAIN or BRANCH track (so the track-creating fallback that
returns a track id never fires) and the `k` inserted payloads are pairwise
distinct and held by no existing station, a run of `k`
`insert_data_optimally` calls with no preferred line increases the
total-item counter by exactly `k`, returns pairwise distinct identifiers of
stations present in the final network, and each payload then resolves via
`find_optimal_route` to the non-empty one-hop path at its own station. -/
theorem c4_insert_run {α : Type} [DecidableEq α] (net : SubwayNetwork α) (ds : List α)
    (hc : TracksCoherent net) (hf : DataFresh net ds) (hnd : ds.Nodup) :
    (insert_run net ds).1.total_data_items = net.total_data_items + ds.length ∧
    (insert_run net ds).2.length = ds.length ∧
    (insert_run net ds).2.Nodup ∧
    (∀ s ∈ (insert_run net ds).2, s ∈ SubwayNetwork.stationIds (insert_run net ds).1) ∧
    (∀ (i : Nat) (hi : i < ds.length) (hi2 : i < (insert_run net ds).2.length),
      (insert_run net ds).1.find_optimal_route (ds.get ⟨i, hi⟩) (ds.get ⟨i, hi⟩)
        = [(insert_run net ds).2.get ⟨i, hi2⟩]) := by
  obtain ⟨h1, h2, h3, h4, h5, h6, h7⟩ :=
    insert_run_spec ds net [] hc (by intro s hs; simp at hs) hf hnd
  refine ⟨h1, h2, h4, ?_, ?_⟩
  · intro s hs
    obtain ⟨⟨i, hi2⟩, hgi⟩ := List.mem_iff_get.mp hs
    have hi : i < ds.length := by
      rw [← h2]
      exact hi2
    obtain ⟨⟨e, he, hk, hd, hsd⟩, _⟩ := h5 i hi hi2
    rw [← hgi, ← hk]
    exact List.mem_map_of_mem (·.1) he
  · intro i hi hi2
    exact route_self _ (h5 i hi hi2)

theorem c4_insert_run_witness :
    TracksCoherent threeStationNet ∧
    DataFresh threeStationNet ["x", "y"] ∧
    (["x", "y"] : List String).Nodup ∧
    ((insert_run threeStationNet ["x", "y"]).1.total_data_items
        = threeStationNet.total_data_items + (["x", "y"] : List String).length ∧
      (insert_run threeStationNet ["x", "y"]).2.length = (["x", "y"] : List String).length ∧
      (insert_run threeStationNet ["x", "y"]).2.Nodup ∧
      (∀ s ∈ (insert_run threeStationNet ["x", "y"]).2,
        s ∈ SubwayNetwork.stationIds (insert_run threeStationNet ["x", "y"]).1) ∧
      (∀ (i : Nat) (hi : i < (["x", "y"] : List String).length)
          (hi2 : i < (insert_run threeStationNet ["x", "y"]).2.length),
        (insert_run threeStationNet ["x", "y"]).1.find_optimal_route
            ((["x", "y"] : List String).get ⟨i, hi⟩) ((["x", "y"] : List String).get ⟨i, hi⟩)
          = [(insert_run threeStationNet ["x", "y"]).2.get ⟨i, hi2⟩])) :=
  ⟨by unfold TracksCoherent; decide, by unfold DataFresh; decide, by decide,
    c4_insert_run threeStationNet ["x", "y"] (by unfold TracksCoherent; decide)
      (by unfold DataFresh; decide) (by decide)⟩
/-- C3 counterexample: `twoLoopsNet` is built by a legal construction
sequence (a main line and two loop connections sharing their end station),
yet `L_station_0.next[LOOP] = L_station_2` while
`L_station_2.prev[LOOP] = L_station_1`: the second loop silently rewired
the shared `prev` entry, so the pairing invariant fails. -/
theorem c3_counterexample : ¬ PairInv twoLoopsNet := by
  intro h
  cases hga : twoLoopsNet.getStation "L_station_0" with
  | none => exact absurd hga (by decide)
  | some sa =>
    cases hgb : twoLoopsNet.getStation "L_station_2" with
    | none => exact absurd hgb (by decide)
    | some sb =>
      have hnext : alGet TrackType.LOOP sa.next_stations = some "L_station_2" := by
        have hq : (twoLoopsNet.getStation "L_station_0").map
            (fun s => alGet TrackType.LOOP s.next_stations) = some (some "L_station_2") := by
          decide
        rw [hga] at hq
        simpa using hq
      have hprev := h _ sa TrackType.LOOP _ sb hga hnext hgb
      have hval : alGet TrackType.LOOP sb.prev_stations = some "L_station_1" := by
        have hq : (twoLoopsNet.getStation "L_station_2").map
            (fun s => alGet TrackType.LOOP s.prev_stations) = some (some "L_station_1") := by
          decide
        rw [hgb] at hq
        simpa using hq
      rw [hprev] at hval
      exact absurd (Option.some.inj hval) (by decide)
theorem pairInv_stations_eq {α : Type} {net net' : SubwayNetwork α}
    (h : net'.stations = net.stations) (hinv : PairInv net) : PairInv net' := by
  intro a sa k b sb hga hnext hgb
  have hga' : alGet a net.stations = some sa := by rw [← h]; exact hga
  have hgb' : alGet b net.stations = some sb := by rw [← h]; exact hgb
  exact hinv a sa k b sb hga' hnext hgb'

theorem nextClosed_stations_eq {α : Type} {net net' : SubwayNetwork α}
    (h : net'.stations = net.stations) (hnc : NextClosed net) : NextClosed net' := by
  intro a sa k b hga hnext
  have hga' : alGet a net.stations = some sa := by rw [← h]; exact hga
  have hb := hnc a sa k b hga' hnext
  show b ∈ net'.stations.map (·.1)
  rw [h]
  exact hb

theorem alGet_alModify_char {κ ν : Type} [DecidableEq κ] {x k : κ} {f : ν → ν}
    {l : List (κ × ν)} {v' : ν} (h : alGet x (alModify k f l) = some v') :
    ∃ v, alGet x l = some v ∧ v' = (if x = k then f v else v) := by
  by_cases hx : x = k
  · subst hx
    rw [alGet_alModify_self] at h
    cases hv : alGet x l with
    | none => rw [hv] at h; simp at h
    | some v =>
      rw [hv] at h
      refine ⟨v, rfl, ?_⟩
      rw [if_pos rfl]
      exact (Option.some.inj h).symm
  · rw [alGet_alModify_ne (fun hh => hx hh.symm)] at h
    exact ⟨v', h, by rw [if_neg hx]⟩

theorem pairInv_modify_frame {α : Type} {net : SubwayNetwork α} {sid : String}
    {f : SubwayStation α → SubwayStation α}
    (hfn : ∀ s, (f s).next_stations = s.next_stations)
    (hfp : ∀ s, (f s).prev_stations = s.prev_stations)
    (hinv : PairInv net) : PairInv (net.modifyStation sid f) := by
  intro a sa k b sb hga hnext hgb
  obtain ⟨sa0, hga0, hsa⟩ := alGet_alModify_char hga
  obtain ⟨sb0, hgb0, hsb⟩ := alGet_alModify_char hgb
  have hnext0 : alGet k sa0.next_stations = some b := by
    rw [hsa] at hnext
    by_cases hx : a = sid
    · rw [if_pos hx, hfn] at hnext
      exact hnext
    · rw [if_neg hx] at hnext
      exact hnext
  have hprev0 := hinv a sa0 k b sb0 hga0 hnext0 hgb0
  rw [hsb]
  by_cases hx : b = sid
  · rw [if_pos hx, hfp]
    exact hprev0
  · rw [if_neg hx]
    exact hprev0

theorem nextClosed_modify_frame {α : Type} {net : SubwayNetwork α} {sid : String}
    {f : SubwayStation α → SubwayStation α}
    (hfn : ∀ s, (f s).next_stations = s.next_stations)
    (hnc : NextClosed net) : NextClosed (net.modifyStation sid f) := by
  intro a sa k b hga hnext
  obtain ⟨sa0, hga0, hsa⟩ := alGet_alModify_char hga
  have hnext0 : alGet k sa0.next_stations = some b := by
    rw [hsa] at hnext
    by_cases hx : a = sid
    · rw [if_pos hx, hfn] at hnext
      exact hnext
    · rw [if_neg hx] at hnext
      exact hnext
  have hb := hnc a sa0 k b hga0 hnext0
  show b ∈ (alModify sid f net.stations).map (·.1)
  rw [alModify_map_fst]
  exact hb
theorem inv_wire {α : Type} (net net' : SubwayNetwork α) (k : TrackType) (a b : String)
    (hchar : ∀ x sx', alGet x net'.stations = some sx' →
      ∃ sx, alGet x net.stations = some sx ∧
        sx'.next_stations = (if x = a then alSet k b sx.next_stations else sx.next_stations) ∧
        sx'.prev_stations = (if x = b then alSet k a sx.prev_stations else sx.prev_stations))
    (hids : net'.stations.map (·.1) = net.stations.map (·.1))
    (hb : b ∈ net.stations.map (·.1))
    (hfree : ∀ y sy, alGet y net.stations = some sy → alGet k sy.next_stations ≠ some b)
    (hinv : PairInv net) (hnc : NextClosed net) : PairInv net' ∧ NextClosed net' := by
  constructor
  · intro a' sa' k' b' sb' hga' hnext' hgb'
    obtain ⟨sa0, hga0, hsan, hsap⟩ := hchar a' sa' hga'
    obtain ⟨sb0, hgb0, hsbn, hsbp⟩ := hchar b' sb' hgb'
    rw [hsbp]
    rw [hsan] at hnext'
    by_cases haa : a' = a
    · rw [if_pos haa] at hnext'
      by_cases hkk : k' = k
      · subst hkk
        rw [alGet_alSet_self] at hnext'
        have hbb : b' = b := (Option.some.inj hnext').symm
        rw [if_pos hbb, haa]
        exact alGet_alSet_self _ _ _
      · rw [alGet_alSet_ne (Ne.symm hkk)] at hnext'
        have hold := hinv a' sa0 k' b' sb0 hga0 hnext' hgb0
        by_cases hbb : b' = b
        · rw [if_pos hbb, alGet_alSet_ne (Ne.symm hkk)]
          exact hold
        · rw [if_neg hbb]
          exact hold
    · rw [if_neg haa] at hnext'
      have hold := hinv a' sa0 k' b' sb0 hga0 hnext' hgb0
      by_cases hbb : b' = b
      · rw [if_pos hbb]
        by_cases hkk : k' = k
        · subst hkk
          exact absurd (hbb ▸ hnext') (hfree a' sa0 hga0)
        · rw [alGet_alSet_ne (Ne.symm hkk)]
          exact hold
      · rw [if_neg hbb]
        exact hold
  · intro a' sa' k' b' hga' hnext'
    obtain ⟨sa0, hga0, hsan, _⟩ := hchar a' sa' hga'
    rw [hsan] at hnext'
    show b' ∈ net'.stations.map (·.1)
    rw [hids]
    by_cases haa : a' = a
    · rw [if_pos haa] at hnext'
      by_cases hkk : k' = k
      · subst hkk
        rw [alGet_alSet_self] at hnext'
        rw [← Option.some.inj hnext']
        exact hb
      · rw [alGet_alSet_ne (Ne.symm hkk)] at hnext'
        exact hnc _ _ _ _ hga0 hnext'
    · rw [if_neg haa] at hnext'
      exact hnc _ _ _ _ hga0 hnext'
theorem inv_new_station {α : Type} (net : SubwayNetwork α) (sid : String) (st : SubwayStation α)
    (hfresh : sid ∉ net.stations.map (·.1))
    (hst_next : st.next_stations = [])
    (hinv : PairInv net) (hnc : NextClosed net) :
    PairInv { net with stations := alSet sid st net.stations } ∧
    NextClosed { net with stations := alSet sid st net.stations } := by
  constructor
  · intro a sa k b sb hga hnext hgb
    by_cases haa : a = sid
    · subst haa
      have hga2 : alGet a (alSet a st net.stations) = some sa := hga
      rw [alGet_alSet_self] at hga2
      have hsa : sa = st := (Option.some.inj hga2).symm
      rw [hsa, hst_next] at hnext
      simp [alGet] at hnext
    · have hga2 : alGet a (alSet sid st net.stations) = some sa := hga
      rw [alGet_alSet_ne (Ne.symm haa)] at hga2
      by_cases hbb : b = sid
      · subst hbb
        exact absurd (hnc a sa k b hga2 hnext) hfresh
      · have hgb2 : alGet b (alSet sid st net.stations) = some sb := hgb
        rw [alGet_alSet_ne (Ne.symm hbb)] at hgb2
        exact hinv a sa k b sb hga2 hnext hgb2
  · intro a sa k b hga hnext
    show b ∈ (alSet sid st net.stations).map (·.1)
    rw [alSet_map_fst_of_not_mem hfresh st]
    by_cases haa : a = sid
    · subst haa
      have hga2 : alGet a (alSet a st net.stations) = some sa := hga
      rw [alGet_alSet_self] at hga2
      have hsa : sa = st := (Option.some.inj hga2).symm
      rw [hsa, hst_next] at hnext
      simp [alGet] at hnext
    · have hga2 : alGet a (alSet sid st net.stations) = some sa := hga
      rw [alGet_alSet_ne (Ne.symm haa)] at hga2
      exact List.mem_append_left _ (hnc a sa k b hga2 hnext)

theorem inv_append_station {α : Type} (net : SubwayNetwork α) (k : TrackType) (p sid : String)
    (st : SubwayStation α) (f : SubwayStation α → SubwayStation α)
    (hfn : ∀ s, (f s).next_stations = alSet k sid s.next_stations)
    (hfp : ∀ s, (f s).prev_stations = s.prev_stations)
    (hfresh : sid ∉ net.stations.map (·.1))
    (hst_next : st.next_stations = [])
    (hst_prev : alGet k st.prev_stations = some p)
    (hinv : PairInv net) (hnc : NextClosed net) :
    PairInv { net with stations := alSet sid st (alModify p f net.stations) } ∧
    NextClosed { net with stations := alSet sid st (alModify p f net.stations) } := by
  have hfresh2 : sid ∉ (alModify p f net.stations).map (·.1) := by
    rw [alModify_map_fst]
    exact hfresh
  constructor
  · intro a sa k' b sb hga hnext hgb
    by_cases haa : a = sid
    · subst haa
      have hga2 : alGet a (alSet a st (alModify p f net.stations)) = some sa := hga
      rw [alGet_alSet_self] at hga2
      have hsa : sa = st := (Option.some.inj hga2).symm
      rw [hsa, hst_next] at hnext
      simp [alGet] at hnext
    · have hga2 : alGet a (alSet sid st (alModify p f net.stations)) = some sa := hga
      rw [alGet_alSet_ne (Ne.symm haa)] at hga2
      obtain ⟨sa0, hga0, hsa⟩ := alGet_alModify_char hga2
      by_cases hap : a = p
      · rw [if_pos hap] at hsa
        have hnext2 : alGet k' (alSet k sid sa0.next_stations) = some b := by
          rw [← hfn sa0, ← hsa]
          exact hnext
        by_cases hkk : k' = k
        · subst hkk
          rw [alGet_alSet_self] at hnext2
          have hbb : b = sid := (Option.some.inj hnext2).symm
          subst hbb
          have hgb2 : alGet b (alSet b st (alModify p f net.stations)) = some sb := hgb
          rw [alGet_alSet_self] at hgb2
          have hsb : sb = st := (Option.some.inj hgb2).symm
          rw [hsb, hst_prev, hap]
        · rw [alGet_alSet_ne (Ne.symm hkk)] at hnext2
          by_cases hbb : b = sid
          · subst hbb
            exact absurd (hnc a sa0 k' b hga0 hnext2) hfresh
          · have hgb2 : alGet b (alSet sid st (alModify p f net.stations)) = some sb := hgb
            rw [alGet_alSet_ne (Ne.symm hbb)] at hgb2
            obtain ⟨sb0, hgb0, hsb⟩ := alGet_alModify_char hgb2
            have hprev0 := hinv a sa0 k' b sb0 hga0 hnext2 hgb0
            rw [hsb]
            by_cases hbp : b = p
            · rw [if_pos hbp, hfp]
              exact hprev0
            · rw [if_neg hbp]
              exact hprev0
      · rw [if_neg hap] at hsa
        have hnext2 : alGet k' sa0.next_stations = some b := by
          rw [← hsa]
          exact hnext
        by_cases hbb : b = sid
        · subst hbb
          exact absurd (hnc a sa0 k' b hga0 hnext2) hfresh
        · have hgb2 : alGet b (alSet sid st (alModify p f net.stations)) = some sb := hgb
          rw [alGet_alSet_ne (Ne.symm hbb)] at hgb2
          obtain ⟨sb0, hgb0, hsb⟩ := alGet_alModify_char hgb2
          have hprev0 := hinv a sa0 k' b sb0 hga0 hnext2 hgb0
          rw [hsb]
          by_cases hbp : b = p
          · rw [if_pos hbp, hfp]
            exact hprev0
          · rw [if_neg hbp]
            exact hprev0
  · intro a sa k' b hga hnext
    show b ∈ (alSet sid st (alModify p f net.stations)).map (·.1)
    rw [alSet_map_fst_of_not_mem hfresh2 st, alModify_map_fst]
    by_cases haa : a = sid
    · subst haa
      have hga2 : alGet a (alSet a st (alModify p f net.stations)) = some sa := hga
      rw [alGet_alSet_self] at hga2
      have hsa : sa = st := (Option.some.inj hga2).symm
      rw [hsa, hst_next] at hnext
      simp [alGet] at hnext
    · have hga2 : alGet a (alSet sid st (alModify p f net.stations)) = some sa := hga
      rw [alGet_alSet_ne (Ne.symm haa)] at hga2
      obtain ⟨sa0, hga0, hsa⟩ := alGet_alModify_char hga2
      by_cases hap : a = p
      · rw [if_pos hap] at hsa
        have hnext2 : alGet k' (alSet k sid sa0.next_stations) = some b := by
          rw [← hfn sa0, ← hsa]
          exact hnext
        by_cases hkk : k' = k
        · subst hkk
          rw [alGet_alSet_self] at hnext2
          have hbb : b = sid := (Option.some.inj hnext2).symm
          subst hbb
          exact List.mem_append_right _ (List.mem_singleton_self b)
        · rw [alGet_alSet_ne (Ne.symm hkk)] at hnext2
          exact List.mem_append_left _ (hnc a sa0 k' b hga0 hnext2)
      · rw [if_neg hap] at hsa
        have hnext2 : alGet k' sa0.next_stations = some b := by
          rw [← hsa]
          exact hnext
        exact List.mem_append_left _ (hnc a sa0 k' b hga0 hnext2)
theorem alModify_alModify_same {κ ν : Type} [DecidableEq κ] (k : κ) (f g : ν → ν)
    (l : List (κ × ν)) : alModify k f (alModify k g l) = alModify k (fun v => f (g v)) l := by
  induction l with
  | nil => rfl
  | cons hd t ih =>
    rw [show alModify k g (hd :: t) = if hd.1 = k then (hd.1, g hd.2) :: t
        else hd :: alModify k g t from rfl]
    by_cases hk : hd.1 = k
    · rw [if_pos hk]
      rw [show alModify k f ((hd.1, g hd.2) :: t) = if hd.1 = k then (hd.1, f (g hd.2)) :: t
          else (hd.1, g hd.2) :: alModify k f t from rfl]
      rw [if_pos hk]
      rw [show alModify k (fun v => f (g v)) (hd :: t) = if hd.1 = k then (hd.1, f (g hd.2)) :: t
          else hd :: alModify k (fun v => f (g v)) t from rfl]
      rw [if_pos hk]
    · rw [if_neg hk]
      rw [show alModify k f (hd :: alModify k g t) = if hd.1 = k then (hd.1, f hd.2) ::
          alModify k g t else hd :: alModify k f (alModify k g t) from rfl]
      rw [if_neg hk]
      rw [show alModify k (fun v => f (g v)) (hd :: t) = if hd.1 = k then (hd.1, f (g hd.2)) :: t
          else hd :: alModify k (fun v => f (g v)) t from rfl]
      rw [if_neg hk, ih]

theorem inv_add_transfer {α : Type} (net : SubwayNetwork α) (id1 id2 : String) (c : Int)
    (hinv : PairInv net) (hnc : NextClosed net) :
    PairInv (net.add_transfer_connection id1 id2 c) ∧
    NextClosed (net.add_transfer_connection id1 id2 c) := by
  cases h1 : net.getStation id1 with
  | none =>
    have hq : net.add_transfer_connection id1 id2 c = net := by
      rw [SubwayNetwork.add_transfer_connection, h1]
    rw [hq]
    exact ⟨hinv, hnc⟩
  | some s1 =>
    cases h2 : net.getStation id2 with
    | none =>
      have hq : net.add_transfer_connection id1 id2 c = net := by
        rw [SubwayNetwork.add_transfer_connection, h1, h2]
      rw [hq]
      exact ⟨hinv, hnc⟩
    | some s2 =>
      have hq : net.add_transfer_connection id1 id2 c =
          ((((net.modifyStation id1 (fun s => { s with transfer_destinations :=
              s.transfer_destinations ++ [(id2, c)] })).modifyStation id2
              (fun s => { s with transfer_destinations :=
              s.transfer_destinations ++ [(id1, c)] })).modifyStation id1
              (fun s => { s with station_type := StationType.TRANSFER })).modifyStation id2
              (fun s => { s with station_type := StationType.TRANSFER })) := by
        rw [SubwayNetwork.add_transfer_connection, h1, h2]
      rw [hq]
      constructor
      · exact pairInv_modify_frame (fun s => rfl) (fun s => rfl)
          (pairInv_modify_frame (fun s => rfl) (fun s => rfl)
            (pairInv_modify_frame (fun s => rfl) (fun s => rfl)
              (pairInv_modify_frame (fun s => rfl) (fun s => rfl) hinv)))
      · exact nextClosed_modify_frame (fun s => rfl)
          (nextClosed_modify_frame (fun s => rfl)
            (nextClosed_modify_frame (fun s => rfl)
              (nextClosed_modify_frame (fun s => rfl) hnc)))
theorem inv_loop {α : Type} (net : SubwayNetwork α) (s e color : String)
    (hfree : ∀ a sa, net.getStation a = some sa →
      alGet TrackType.LOOP sa.next_stations ≠ some e)
    (hinv : PairInv net) (hnc : NextClosed net) :
    PairInv (net.create_loop_connection s e color).1 ∧
    NextClosed (net.create_loop_connection s e color).1 := by
  cases hgs : net.getStation s with
  | none =>
    have hq : (net.create_loop_connection s e color).1 = net := by
      rw [SubwayNetwork.create_loop_connection, hgs]
    rw [hq]
    exact ⟨hinv, hnc⟩
  | some s1 =>
    cases hge : net.getStation e with
    | none =>
      have hq : (net.create_loop_connection s e color).1 = net := by
        rw [SubwayNetwork.create_loop_connection, hgs, hge]
      rw [hq]
      exact ⟨hinv, hnc⟩
    | some e1 =>
      have hq : (net.create_loop_connection s e color).1 =
          ((((net.modifyStation s (fun st =>
              { st with next_stations := alSet TrackType.LOOP e st.next_stations
              })).modifyStation e (fun st =>
              { st with prev_stations := alSet TrackType.LOOP s st.prev_stations
              })).modifyStation s (fun st =>
              { st with line_colors := addIfAbsent color st.line_colors
              })).modifyStation e (fun st =>
              { st with line_colors := addIfAbsent color st.line_colors })).setTrack
            ("loop_" ++ s ++ "_" ++ e)
            { track_id := "loop_" ++ s ++ "_" ++ e, track_type := TrackType.LOOP,
              color := color, stations := [s, e] } := by
        rw [SubwayNetwork.create_loop_connection, hgs, hge]
      rw [hq]
      have hwire := inv_wire net
        ((net.modifyStation s (fun st =>
          { st with next_stations := alSet TrackType.LOOP e st.next_stations
          })).modifyStation e (fun st =>
          { st with prev_stations := alSet TrackType.LOOP s st.prev_stations }))
        TrackType.LOOP s e
        (by
          intro x sx' hx
          obtain ⟨t1, h1c, e1c⟩ := alGet_alModify_char hx
          obtain ⟨t0, h0c, e0c⟩ := alGet_alModify_char h1c
          refine ⟨t0, h0c, ?_, ?_⟩
          · rw [e1c, e0c]
            by_cases hxe : x = e
            · rw [if_pos hxe]
              by_cases hxs : x = s
              · rw [if_pos hxs, if_pos hxs]
              · rw [if_neg hxs, if_neg hxs]
            · rw [if_neg hxe]
              by_cases hxs : x = s
              · rw [if_pos hxs, if_pos hxs]
              · rw [if_neg hxs, if_neg hxs]
          · rw [e1c, e0c]
            by_cases hxe : x = e
            · rw [if_pos hxe, if_pos hxe]
              by_cases hxs : x = s
              · rw [if_pos hxs]
              · rw [if_neg hxs]
            · rw [if_neg hxe, if_neg hxe]
              by_cases hxs : x = s
              · rw [if_pos hxs]
              · rw [if_neg hxs])
        (by
          show (alModify e _ (alModify s _ net.stations)).map (·.1) = net.stations.map (·.1)
          rw [alModify_map_fst, alModify_map_fst])
        (mem_fst_of_alGet_eq_some hge)
        hfree hinv hnc
      obtain ⟨hpi2, hnc2⟩ := hwire
      constructor
      · exact pairInv_stations_eq rfl
          (pairInv_modify_frame (fun st => rfl) (fun st => rfl)
            (pairInv_modify_frame (fun st => rfl) (fun st => rfl) hpi2))
      · exact nextClosed_stations_eq rfl
          (nextClosed_modify_frame (fun st => rfl)
            (nextClosed_modify_frame (fun st => rfl) hnc2))
theorem inv_main_aux {α : Type} (lid color : String) (n : Nat) :
    ∀ (items : List α) (i : Nat) (prev : Option String) (net : SubwayNetwork α)
      (acc : List String),
      PairInv net → NextClosed net →
      (∀ j, i ≤ j → j < i + items.length →
        (lid ++ "_station_" ++ Nat.repr j) ∉ net.stationIds) →
      PairInv (SubwayNetwork.create_main_line_aux lid color n items i prev net acc).1 ∧
      NextClosed (SubwayNetwork.create_main_line_aux lid color n items i prev net acc).1 := by
  intro items
  induction items with
  | nil => exact fun i prev net acc hinv hnc hup => ⟨hinv, hnc⟩
  | cons data rest ih =>
    intro i prev net acc hinv hnc hup
    have hfreshi : (lid ++ "_station_" ++ Nat.repr i) ∉ net.stationIds := by
      apply hup i (Nat.le_refl i)
      simp only [List.length_cons]
      omega
    have hstep : SubwayNetwork.create_main_line_aux lid color n (data :: rest) i prev net acc
        = SubwayNetwork.create_main_line_aux lid color n rest (i + 1)
            (some (lid ++ "_station_" ++ Nat.repr i))
            ((match prev with
              | some p => net.modifyStation p (fun s =>
                  { s with next_stations := alSet TrackType.MAIN (lid ++ "_station_" ++ Nat.repr i) s.next_stations })
              | none => net).setStation (lid ++ "_station_" ++ Nat.repr i)
              { station_id := lid ++ "_station_" ++ Nat.repr i, data := data,
                station_type := if i = 0 ∨ i = n - 1 then StationType.TERMINAL
                                else StationType.REGULAR,
                line_colors := [color],
                prev_stations := match prev with
                  | some p => [(TrackType.MAIN, p)]
                  | none => [] })
            (acc ++ [lid ++ "_station_" ++ Nat.repr i]) := rfl
    rw [hstep]
    cases prev with
    | none =>
      have hnew := inv_new_station net (lid ++ "_station_" ++ Nat.repr i)
        ({ station_id := lid ++ "_station_" ++ Nat.repr i, data := data,
                 station_type := if i = 0 ∨ i = n - 1 then StationType.TERMINAL
                                 else StationType.REGULAR,
                 line_colors := [color], prev_stations := [] })
        hfreshi rfl hinv hnc
      apply ih (i + 1) _ _ _ hnew.1 hnew.2
      intro j hj1 hj2
      show (lid ++ "_station_" ++ Nat.repr j) ∉
        (alSet (lid ++ "_station_" ++ Nat.repr i) _ net.stations).map (·.1)
      rw [alSet_map_fst_of_not_mem hfreshi]
      intro hmem
      rcases List.mem_append.mp hmem with hmem | hmem
      · exact hup j (by omega) (by simp only [List.length_cons]; omega) hmem
      · have hji : j = i := station_id_index_injective (List.mem_singleton.mp hmem)
        omega
    | some p =>
      have happ := inv_append_station net TrackType.MAIN p
        (lid ++ "_station_" ++ Nat.repr i)
        ({ station_id := lid ++ "_station_" ++ Nat.repr i, data := data,
                 station_type := if i = 0 ∨ i = n - 1 then StationType.TERMINAL
                                 else StationType.REGULAR,
                 line_colors := [color], prev_stations := [(TrackType.MAIN, p)] })
        (f := fun s => { s with next_stations := alSet TrackType.MAIN (lid ++ "_station_" ++ Nat.repr i) s.next_stations })
        (fun s => rfl) (fun s => rfl) hfreshi rfl rfl hinv hnc
      apply ih (i + 1) _ _ _ happ.1 happ.2
      intro j hj1 hj2
      show (lid ++ "_station_" ++ Nat.repr j) ∉
        (alSet (lid ++ "_station_" ++ Nat.repr i) _ (alModify p _ net.stations)).map (·.1)
      have hfreshi2 : (lid ++ "_station_" ++ Nat.repr i) ∉
          (alModify p (fun s => { s with next_stations := alSet TrackType.MAIN (lid ++ "_station_" ++ Nat.repr i) s.next_stations }) net.stations).map (·.1) := by
        rw [alModify_map_fst]
        exact hfreshi
      rw [alSet_map_fst_of_not_mem hfreshi2, alModify_map_fst]
      intro hmem
      rcases List.mem_append.mp hmem with hmem | hmem
      · exact hup j (by omega) (by simp only [List.length_cons]; omega) hmem
      · have hji : j = i := station_id_index_injective (List.mem_singleton.mp hmem)
        omega

theorem inv_main {α : Type} (net : SubwayNetwork α) (lid : String) (items : List α)
    (color : String)
    (hfresh : ∀ j, j < items.length → (lid ++ "_station_" ++ Nat.repr j) ∉ net.stationIds)
    (hinv : PairInv net) (hnc : NextClosed net) :
    PairInv (net.create_main_line lid items color).1 ∧
    NextClosed (net.create_main_line lid items color).1 := by
  have haux := inv_main_aux lid color items.length items 0 none net [] hinv hnc
    (fun j hj1 hj2 => hfresh j (by omega))
  exact ⟨pairInv_stations_eq rfl haux.1, nextClosed_stations_eq rfl haux.2⟩
theorem inv_branch_aux {α : Type} (bid color : String) (n : Nat) :
    ∀ (items : List α) (i : Nat) (prev : String) (net : SubwayNetwork α)
      (acc : List String),
      PairInv net → NextClosed net →
      (∀ j, i ≤ j → j < i + items.length →
        (bid ++ "_station_" ++ Nat.repr j) ∉ net.stationIds) →
      PairInv (SubwayNetwork.create_branch_line_aux bid color n items i prev net acc).1 ∧
      NextClosed (SubwayNetwork.create_branch_line_aux bid color n items i prev net acc).1 := by
  intro items
  induction items with
  | nil => exact fun i prev net acc hinv hnc hup => ⟨hinv, hnc⟩
  | cons data rest ih =>
    intro i prev net acc hinv hnc hup
    have hfreshi : (bid ++ "_station_" ++ Nat.repr i) ∉ net.stationIds := by
      apply hup i (Nat.le_refl i)
      simp only [List.length_cons]
      omega
    have hstep : SubwayNetwork.create_branch_line_aux bid color n (data :: rest) i prev net acc
        = SubwayNetwork.create_branch_line_aux bid color n rest (i + 1)
            (bid ++ "_station_" ++ Nat.repr i)
            ((if i = 0 then
                (net.modifyStation prev (fun s =>
                  { s with next_stations := alSet TrackType.BRANCH (bid ++ "_station_" ++ Nat.repr i) s.next_stations })).modifyStation
                  prev (fun s =>
                  { s with branch_connections := s.branch_connections ++ [bid ++ "_station_" ++ Nat.repr i] })
              else net.modifyStation prev (fun s =>
                  { s with next_stations := alSet TrackType.BRANCH (bid ++ "_station_" ++ Nat.repr i) s.next_stations })).setStation
              (bid ++ "_station_" ++ Nat.repr i)
              { station_id := bid ++ "_station_" ++ Nat.repr i, data := data,
                station_type := if i = n - 1 then StationType.TERMINAL
                                else StationType.REGULAR,
                line_colors := [color],
                prev_stations := [(TrackType.BRANCH, prev)] })
            (acc ++ [bid ++ "_station_" ++ Nat.repr i]) := rfl
    rw [hstep]
    by_cases hi0 : i = 0
    · rw [if_pos hi0]
      have happ := inv_append_station net TrackType.BRANCH prev
        (bid ++ "_station_" ++ Nat.repr i)
        ({ station_id := bid ++ "_station_" ++ Nat.repr i, data := data,
                 station_type := if i = n - 1 then StationType.TERMINAL
                                 else StationType.REGULAR,
                 line_colors := [color], prev_stations := [(TrackType.BRANCH, prev)] })
        (f := fun s =>
          { (({ s with next_stations := alSet TrackType.BRANCH (bid ++ "_station_" ++ Nat.repr i) s.next_stations }) : SubwayStation α) with
            branch_connections := s.branch_connections ++ [bid ++ "_station_" ++ Nat.repr i] })
        (fun s => rfl) (fun s => rfl) hfreshi rfl rfl hinv hnc
      have hse : (((net.modifyStation prev (fun s =>
          { s with next_stations := alSet TrackType.BRANCH (bid ++ "_station_" ++ Nat.repr i) s.next_stations })).modifyStation
            prev (fun s =>
          { s with branch_connections := s.branch_connections ++ [bid ++ "_station_" ++ Nat.repr i] })).setStation
          (bid ++ "_station_" ++ Nat.repr i)
          { station_id := bid ++ "_station_" ++ Nat.repr i, data := data,
            station_type := if i = n - 1 then StationType.TERMINAL
                            else StationType.REGULAR,
            line_colors := [color],
            prev_stations := [(TrackType.BRANCH, prev)] }).stations
          = alSet (bid ++ "_station_" ++ Nat.repr i)
            { station_id := bid ++ "_station_" ++ Nat.repr i, data := data,
              station_type := if i = n - 1 then StationType.TERMINAL
                              else StationType.REGULAR,
              line_colors := [color],
              prev_stations := [(TrackType.BRANCH, prev)] }
            (alModify prev (fun s =>
              { (({ s with next_stations := alSet TrackType.BRANCH (bid ++ "_station_" ++ Nat.repr i) s.next_stations }) : SubwayStation α) with
                branch_connections := s.branch_connections ++ [bid ++ "_station_" ++ Nat.repr i] })
              net.stations) := by
        show alSet _ _ (alModify prev _ (alModify prev _ net.stations)) = _
        rw [alModify_alModify_same]
      apply ih (i + 1) _ _ _
        (pairInv_stations_eq hse happ.1) (nextClosed_stations_eq hse happ.2)
      intro j hj1 hj2
      show (bid ++ "_station_" ++ Nat.repr j) ∉
        (alSet (bid ++ "_station_" ++ Nat.repr i) _
          (alModify prev _ (alModify prev _ net.stations))).map (·.1)
      rw [alSet_map_fst_of_not_mem (by rw [alModify_map_fst, alModify_map_fst]; exact hfreshi),
        alModify_map_fst, alModify_map_fst]
      intro hmem
      rcases List.mem_append.mp hmem with hmem | hmem
      · exact hup j (by omega) (by simp only [List.length_cons]; omega) hmem
      · have hji : j = i := station_id_index_injective (List.mem_singleton.mp hmem)
        omega
    · rw [if_neg hi0]
      have happ := inv_append_station net TrackType.BRANCH prev
        (bid ++ "_station_" ++ Nat.repr i)
        ({ station_id := bid ++ "_station_" ++ Nat.repr i, data := data,
                 station_type := if i = n - 1 then StationType.TERMINAL
                                 else StationType.REGULAR,
                 line_colors := [color], prev_stations := [(TrackType.BRANCH, prev)] })
        (f := fun s => { s with next_stations := alSet TrackType.BRANCH (bid ++ "_station_" ++ Nat.repr i) s.next_stations })
        (fun s => rfl) (fun s => rfl) hfreshi rfl rfl hinv hnc
      apply ih (i + 1) _ _ _ happ.1 happ.2
      intro j hj1 hj2
      show (bid ++ "_station_" ++ Nat.repr j) ∉
        (alSet (bid ++ "_station_" ++ Nat.repr i) _ (alModify prev _ net.stations)).map (·.1)
      rw [alSet_map_fst_of_not_mem (by rw [alModify_map_fst]; exact hfreshi),
        alModify_map_fst]
      intro hmem
      rcases List.mem_append.mp hmem with hmem | hmem
      · exact hup j (by omega) (by simp only [List.length_cons]; omega) hmem
      · have hji : j = i := station_id_index_injective (List.mem_singleton.mp hmem)
        omega

theorem inv_branch {α : Type} (net : SubwayNetwork α) (bid jid : String) (items : List α)
    (color : String)
    (hfresh : ∀ j, j < items.length → (bid ++ "_station_" ++ Nat.repr j) ∉ net.stationIds)
    (hinv : PairInv net) (hnc : NextClosed net) :
    PairInv (net.create_branch_line bid jid items color).1 ∧
    NextClosed (net.create_branch_line bid jid items color).1 := by
  cases hj : net.getStation jid with
  | none =>
    have hq : (net.create_branch_line bid jid items color).1 = net := by
      rw [SubwayNetwork.create_branch_line, hj]
    rw [hq]
    exact ⟨hinv, hnc⟩
  | some sj =>
    have haux := inv_branch_aux bid color items.length items 0 jid
      (net.modifyStation jid (fun s => { s with station_type := StationType.JUNCTION })) []
      (pairInv_modify_frame (fun s => rfl) (fun s => rfl) hinv)
      (nextClosed_modify_frame (fun s => rfl) hnc)
      (fun j hj1 hj2 => by
        show _ ∉ (alModify jid _ net.stations).map (·.1)
        rw [alModify_map_fst]
        exact hfresh j (by omega))
    have hse : (net.create_branch_line bid jid items color).1.stations
        = (SubwayNetwork.create_branch_line_aux bid color items.length items 0 jid
            (net.modifyStation jid (fun s =>
              { s with station_type := StationType.JUNCTION })) []).1.stations := by
      rw [SubwayNetwork.create_branch_line, hj]
      rfl
    exact ⟨pairInv_stations_eq hse haux.1, nextClosed_stations_eq hse haux.2⟩
theorem inv_insert {α : Type} (net : SubwayNetwork α) (d : α)
    (pref : Option String)
    (hfresh : match net.insert_target pref with
      | none => ("main_0_station_0" : String) ∉ net.stationIds
      | some t => (t.track_id ++ "_auto_" ++ Nat.repr t.stations.length) ∉ net.stationIds)
    (hinv : PairInv net) (hnc : NextClosed net) :
    PairInv (net.insert_data_optimally d pref).1 ∧
    NextClosed (net.insert_data_optimally d pref).1 := by
  cases htg : net.insert_target pref with
  | none =>
    have hfr : ("main_0_station_0" : String) ∉ net.stationIds := by
      rw [htg] at hfresh
      exact hfresh
    have hq : (net.insert_data_optimally d pref).1 = (net.create_main_line "main_0" [d] "blue").1 := by
      rw [SubwayNetwork.insert_data_optimally, htg]
    rw [hq]
    apply inv_main net "main_0" [d] "blue" ?hf hinv hnc
    intro j hj
    have hj0 : j = 0 := by
      simp only [List.length_cons, List.length_nil] at hj
      omega
    subst hj0
    have hlit : ("main_0" : String) ++ "_station_" ++ Nat.repr 0 = "main_0_station_0" := rfl
    rw [hlit]
    exact hfr
  | some t =>
    have hfr : (t.track_id ++ "_auto_" ++ Nat.repr t.stations.length) ∉ net.stationIds := by
      rw [htg] at hfresh
      exact hfresh
    have hq : (net.insert_data_optimally d pref).1 = (insert_phase2 net t d).1 := by
      rw [insert_eq_phase2 d htg]
    rw [hq]
    cases hlast : t.stations.getLast? with
    | none =>
      have hnew := inv_new_station net (t.track_id ++ "_auto_" ++ Nat.repr t.stations.length)
        ({ station_id := t.track_id ++ "_auto_" ++ Nat.repr t.stations.length, data := d,
           line_colors := [t.color] }) hfr rfl hinv hnc
      have hse : (insert_phase2 net t d).1.stations
          = alSet (t.track_id ++ "_auto_" ++ Nat.repr t.stations.length)
            { station_id := t.track_id ++ "_auto_" ++ Nat.repr t.stations.length, data := d,
              line_colors := [t.color] } net.stations := by
        simp only [insert_phase2, hlast]
        rfl
      exact ⟨pairInv_stations_eq hse hnew.1, nextClosed_stations_eq hse hnew.2⟩
    | some lastid =>
      have happ := inv_append_station net t.track_type lastid
        (t.track_id ++ "_auto_" ++ Nat.repr t.stations.length)
        ({ station_id := t.track_id ++ "_auto_" ++ Nat.repr t.stations.length, data := d,
           line_colors := [t.color], prev_stations := [(t.track_type, lastid)],
           station_type := StationType.TERMINAL })
        (fun s => { s with next_stations := alSet t.track_type (t.track_id ++ "_auto_" ++ Nat.repr t.stations.length) s.next_stations, station_type := if s.station_type = StationType.TERMINAL then StationType.REGULAR else s.station_type })
        (fun s => rfl) (fun s => rfl) hfr rfl (by simp [alGet]) hinv hnc
      have hse : (insert_phase2 net t d).1.stations
          = alSet (t.track_id ++ "_auto_" ++ Nat.repr t.stations.length)
            { station_id := t.track_id ++ "_auto_" ++ Nat.repr t.stations.length, data := d,
              line_colors := [t.color], prev_stations := [(t.track_type, lastid)],
              station_type := StationType.TERMINAL }
            (alModify lastid (fun s => { s with next_stations := alSet t.track_type (t.track_id ++ "_auto_" ++ Nat.repr t.stations.length) s.next_stations, station_type := if s.station_type = StationType.TERMINAL then StationType.REGULAR else s.station_type }) net.stations) := by
        simp only [insert_phase2, hlast]
        rfl
      exact ⟨pairInv_stations_eq hse happ.1, nextClosed_stations_eq hse happ.2⟩
theorem inv_express_aux {α : Type} (color : String) (main_ids : List String) :
    ∀ (idxs : List Int) (prev : Option String) (net : SubwayNetwork α)
      (tsts tstops : List String),
      PairInv net → NextClosed net →
      (∀ s ∈ idxs.filterMap (resolveIdx main_ids), s ∈ net.stationIds) →
      (∀ s ∈ idxs.filterMap (resolveIdx main_ids), ∀ a sa, net.getStation a = some sa →
        alGet TrackType.EXPRESS sa.next_stations ≠ some s) →
      (idxs.filterMap (resolveIdx main_ids)).Nodup →
      PairInv (SubwayNetwork.create_express_line_aux color main_ids idxs prev net tsts tstops).1 ∧
      NextClosed (SubwayNetwork.create_express_line_aux color main_ids idxs prev net tsts tstops).1 := by
  intro idxs
  induction idxs with
  | nil => exact fun prev net tsts tstops hinv hnc _ _ _ => ⟨hinv, hnc⟩
  | cons i rest ih =>
    intro prev net tsts tstops hinv hnc hmem hfree hnodup
    by_cases hge : i ≥ (main_ids.length : Int)
    · have hres : resolveIdx main_ids i = none := by
        rw [resolveIdx, if_pos hge]
      have hfm : (i :: rest).filterMap (resolveIdx main_ids)
          = rest.filterMap (resolveIdx main_ids) := List.filterMap_cons_none hres
      rw [hfm] at hmem hfree hnodup
      simp only [SubwayNetwork.create_express_line_aux, if_pos hge]
      exact ih prev net tsts tstops hinv hnc hmem hfree hnodup
    · by_cases hok : ((if i ≥ 0 then i else (main_ids.length : Int) + i).toNat
          < main_ids.length ∧ 0 ≤ (if i ≥ 0 then i else (main_ids.length : Int) + i))
      · have hres : resolveIdx main_ids i
            = some (main_ids.get ⟨(if i ≥ 0 then i else (main_ids.length : Int) + i).toNat,
                hok.1⟩) := by
          rw [resolveIdx, if_neg hge, dif_pos hok]
        have hfm : (i :: rest).filterMap (resolveIdx main_ids)
            = main_ids.get ⟨(if i ≥ 0 then i else (main_ids.length : Int) + i).toNat, hok.1⟩
              :: rest.filterMap (resolveIdx main_ids) := List.filterMap_cons_some hres
        rw [hfm] at hmem hfree hnodup
        have hsmem : main_ids.get ⟨(if i ≥ 0 then i else (main_ids.length : Int) + i).toNat,
            hok.1⟩ ∈ net.stationIds := hmem _ (List.mem_cons_self _ _)
        have hsfree := hfree _ (List.mem_cons_self _ _)
        have hsnodup : main_ids.get ⟨(if i ≥ 0 then i else (main_ids.length : Int) + i).toNat,
            hok.1⟩ ∉ rest.filterMap (resolveIdx main_ids) := (List.nodup_cons.mp hnodup).1
        simp only [SubwayNetwork.create_express_line_aux, if_neg hge, dif_pos hok]
        cases prev with
        | none =>
          refine ih _ _ (tsts ++ [_]) (addIfAbsent _ tstops) ?_ ?_ ?_ ?_
            ((List.nodup_cons.mp hnodup).2)
          · exact pairInv_modify_frame (fun s => rfl) (fun s => rfl) hinv
          · exact nextClosed_modify_frame (fun s => rfl) hnc
          · intro s hs
            show s ∈ (alModify _ _ net.stations).map (·.1)
            rw [alModify_map_fst]
            exact hmem s (List.mem_cons_of_mem _ hs)
          · intro s hs a sa' hga' hnext'
            obtain ⟨sa0, hga0, hsa⟩ := alGet_alModify_char hga'
            have hn0 : alGet TrackType.EXPRESS sa0.next_stations = some s := by
              rw [← hnext', hsa]
              by_cases hxa : a = main_ids.get
                  ⟨(if i ≥ 0 then i else (main_ids.length : Int) + i).toNat, hok.1⟩
              · rw [if_pos hxa]
              · rw [if_neg hxa]
            exact hfree s (List.mem_cons_of_mem _ hs) a sa0 hga0 hn0
        | some p =>
          have hwire := inv_wire net
            (((net.modifyStation
                (main_ids.get ⟨(if i ≥ 0 then i else (main_ids.length : Int) + i).toNat, hok.1⟩)
                (fun s => { s with station_type := StationType.EXPRESS, line_colors := addIfAbsent color s.line_colors })).modifyStation
                (main_ids.get ⟨(if i ≥ 0 then i else (main_ids.length : Int) + i).toNat, hok.1⟩)
                (fun s => { s with prev_stations := alSet TrackType.EXPRESS p s.prev_stations })).modifyStation
                p (fun s => { s with next_stations := alSet TrackType.EXPRESS (main_ids.get ⟨(if i ≥ 0 then i else (main_ids.length : Int) + i).toNat, hok.1⟩) s.next_stations, express_skip_to := some (main_ids.get ⟨(if i ≥ 0 then i else (main_ids.length : Int) + i).toNat, hok.1⟩) }))
            TrackType.EXPRESS p
            (main_ids.get ⟨(if i ≥ 0 then i else (main_ids.length : Int) + i).toNat, hok.1⟩)
            (by
              intro x sx' hx
              obtain ⟨s2, h2c, e2c⟩ := alGet_alModify_char hx
              obtain ⟨s1, h1c, e1c⟩ := alGet_alModify_char h2c
              obtain ⟨s0, h0c, e0c⟩ := alGet_alModify_char h1c
              refine ⟨s0, h0c, ?_, ?_⟩
              · rw [e2c, e1c, e0c]
                by_cases hxp : x = p
                · rw [if_pos hxp, if_pos hxp]
                  by_cases hxs : x = main_ids.get
                      ⟨(if i ≥ 0 then i else (main_ids.length : Int) + i).toNat, hok.1⟩
                  · rw [if_pos hxs, if_pos hxs]
                  · rw [if_neg hxs, if_neg hxs]
                · rw [if_neg hxp, if_neg hxp]
                  by_cases hxs : x = main_ids.get
                      ⟨(if i ≥ 0 then i else (main_ids.length : Int) + i).toNat, hok.1⟩
                  · rw [if_pos hxs, if_pos hxs]
                  · rw [if_neg hxs, if_neg hxs]
              · rw [e2c, e1c, e0c]
                by_cases hxs : x = main_ids.get
                    ⟨(if i ≥ 0 then i else (main_ids.length : Int) + i).toNat, hok.1⟩
                · rw [if_pos hxs, if_pos hxs, if_pos hxs]
                  by_cases hxp : x = p
                  · rw [if_pos hxp]
                  · rw [if_neg hxp]
                · rw [if_neg hxs, if_neg hxs, if_neg hxs]
                  by_cases hxp : x = p
                  · rw [if_pos hxp]
                  · rw [if_neg hxp]
            )
            (by
              show (alModify p _ (alModify _ _ (alModify _ _ net.stations))).map (·.1)
                = net.stations.map (·.1)
              rw [alModify_map_fst, alModify_map_fst, alModify_map_fst])
            hsmem hsfree hinv hnc
          refine ih _ _ (tsts ++ [_]) (addIfAbsent _ tstops) hwire.1 hwire.2 ?_ ?_
            ((List.nodup_cons.mp hnodup).2)
          · intro s hs
            show s ∈ (alModify p _ (alModify _ _ (alModify _ _ net.stations))).map (·.1)
            rw [alModify_map_fst, alModify_map_fst, alModify_map_fst]
            exact hmem s (List.mem_cons_of_mem _ hs)
          · intro s hs a sa' hga' hnext'
            obtain ⟨s2, h2c, e2c⟩ := alGet_alModify_char hga'
            obtain ⟨s1, h1c, e1c⟩ := alGet_alModify_char h2c
            obtain ⟨s0, h0c, e0c⟩ := alGet_alModify_char h1c
            by_cases hxp : a = p
            · rw [e2c, if_pos hxp] at hnext'
              have hcon : main_ids.get ⟨(if i ≥ 0 then i else
                  (main_ids.length : Int) + i).toNat, hok.1⟩ = s := by
                have hnext2 : alGet TrackType.EXPRESS (alSet TrackType.EXPRESS
                    (main_ids.get ⟨(if i ≥ 0 then i else (main_ids.length : Int) + i).toNat,
                      hok.1⟩) s2.next_stations) = some s := hnext'
                rw [alGet_alSet_self] at hnext2
                exact Option.some.inj hnext2
              exact hsnodup (hcon ▸ hs)
            · rw [e2c, if_neg hxp] at hnext'
              have hn0 : alGet TrackType.EXPRESS s0.next_stations = some s := by
                rw [← hnext', e1c, e0c]
                by_cases hxs : a = main_ids.get
                    ⟨(if i ≥ 0 then i else (main_ids.length : Int) + i).toNat, hok.1⟩
                · rw [if_pos hxs, if_pos hxs]
                · rw [if_neg hxs, if_neg hxs]
              exact hfree s (List.mem_cons_of_mem _ hs) a s0 h0c hn0
      · simp only [SubwayNetwork.create_express_line_aux, if_neg hge, dif_neg hok]
        exact ⟨hinv, hnc⟩
theorem inv_express {α : Type} (net : SubwayNetwork α) (eid mlid : String) (idxs : List Int)
    (color : String)
    (hmem : ∀ s ∈ expressSelection net mlid idxs, s ∈ net.stationIds)
    (hfree : ∀ s ∈ expressSelection net mlid idxs, ∀ a sa, net.getStation a = some sa →
      alGet TrackType.EXPRESS sa.next_stations ≠ some s)
    (hnodup : (expressSelection net mlid idxs).Nodup)
    (hinv : PairInv net) (hnc : NextClosed net) :
    PairInv (net.create_express_line eid mlid idxs color).1 ∧
    NextClosed (net.create_express_line eid mlid idxs color).1 := by
  cases hgt : net.getTrack mlid with
  | none =>
    have hq : (net.create_express_line eid mlid idxs color).1 = net := by
      rw [SubwayNetwork.create_express_line, hgt]
    rw [hq]
    exact ⟨hinv, hnc⟩
  | some mt =>
    have hsel : expressSelection net mlid idxs = idxs.filterMap (resolveIdx mt.stations) := by
      rw [expressSelection, hgt]
    rw [hsel] at hmem hfree hnodup
    have haux := inv_express_aux color mt.stations idxs none net [] [] hinv hnc hmem hfree hnodup
    cases haux2 : SubwayNetwork.create_express_line_aux color mt.stations idxs none net [] [] with
    | mk net2 res =>
      rw [haux2] at haux
      cases res with
      | ok r =>
        have hse : (net.create_express_line eid mlid idxs color).1.stations = net2.stations := by
          simp only [SubwayNetwork.create_express_line, hgt, haux2]
          rfl
        exact ⟨pairInv_stations_eq hse haux.1, nextClosed_stations_eq hse haux.2⟩
      | error e =>
        have hse : (net.create_express_line eid mlid idxs color).1.stations = net2.stations := by
          simp only [SubwayNetwork.create_express_line, hgt, haux2]
        exact ⟨pairInv_stations_eq hse haux.1, nextClosed_stations_eq hse haux.2⟩

theorem built_inv {α : Type} {net : SubwayNetwork α} (hb : Built net) :
    PairInv net ∧ NextClosed net := by
  induction hb with
  | empty =>
    constructor
    · intro a sa k b sb hga hnext hgb
      simp [SubwayNetwork.empty, SubwayNetwork.getStation, alGet] at hga
    · intro a sa k b hga hnext
      simp [SubwayNetwork.empty, SubwayNetwork.getStation, alGet] at hga
  | main_line net lid items color hb hfresh ih =>
    exact inv_main net lid items color hfresh ih.1 ih.2
  | branch_line net bid jid items color hb hfresh ih =>
    exact inv_branch net bid jid items color hfresh ih.1 ih.2
  | express_line net eid mlid idxs color hb hnodup hmem hfree ih =>
    exact inv_express net eid mlid idxs color hmem hfree hnodup ih.1 ih.2
  | loop_conn net s e color hb hfree ih =>
    exact inv_loop net s e color hfree ih.1 ih.2
  | transfer net id1 id2 c hb ih =>
    exact inv_add_transfer net id1 id2 c ih.1 ih.2
  | insert net data pref hb hfresh ih =>
    exact inv_insert net data pref hfresh ih.1 ih.2

/-- C3 (corrected): the pairing invariant `A.next[k] = B → B.prev[k] = A`
holds after every construction sequence in which no wiring silently
overwrites an edge another pair relies on: generated station identifiers
are fresh, the stations an express line selects are distinct, present and
not yet the target of an EXPRESS edge, and a loop connection's end station
is not yet the target of a LOOP edge.  Without these conditions the claim
is false (`c3_counterexample`). -/
theorem c3_built_pairinv {α : Type} {net : SubwayNetwork α} (hb : Built net) : PairInv net :=
  (built_inv hb).1

theorem c3_built_pairinv_witness : PairInv threeStationNet :=
  c3_built_pairinv (Built.main_line (SubwayNetwork.empty String) "L" ["a", "b", "c"] "blue"
    Built.empty (by
      intro j hj
      simp [SubwayNetwork.empty, SubwayNetwork.stationIds]))
